import Mathlib

/-!
Verification development for the RequirementsManager repository.

This file gives a shallow embedding, in Lean 4, of the parts of the
C++ source that the checked claims are about:

* the node data model and its kind-specific setters
  (Node.h, Requirement.h, Story.h, UseCase.h, Product.h, Organization.h,
  CommitableNode.h);
* the worker pool (ThreadPool.h);
* the persistence layer (PqDatabase.h: SaveNodesNode) over a relational
  store modelled as lists of rows;
* the graph factory (PqNodeFactory.h: NodeAllocator, startLoading,
  addToUpDown, process);
* the REST route handlers (GraphServer.h);
* the cereal JSON serialization of a reachable node graph
  (the save/load member functions of every node kind).

C++ objects become Lean records, pointer graphs become arenas keyed by
identifier (a UUID is an opaque string here), throwing code returns
Except, and stateful code passes state explicitly.  Machine integers in
the source (time_t, unsigned long) are modelled as Int and Nat: none of
the claims involve overflow behaviour.
-/

namespace RequirementsManager

/-- UUIDs are opaque strings in this model (boost uuids are only ever
compared and copied by the code under study, via idString). -/
abbrev Uuid := String

/-- The std::logic_error kinds thrown by the node model.  The source
throws std::logic_error with a distinguishing message prefix:
NOTCHANGED (CommitableNode::throwIfCommitted), NOTDISCARDED
(CommitableNode::discardChange), and the locked-organization error of
Organization::setName. -/
inductive LogicError where
  | notChanged
  | notDiscarded
  | organizationLocked
deriving Repr, DecidableEq

/-! ## Kind payloads (scalar data of each node kind)

One constructor per concrete node kind, carrying exactly the scalar
fields of the C++ class.  The four commitable kinds carry the state
inherited from CommitableNode (committed flag and the changeParent and
changeChild references); the two address kinds carry the addressLines
reference (a pointer to a Text node in the source, an optional
identifier here). -/

/-- State inherited from CommitableNode (part_010): the committed flag
and the two typed references, modelled as optional identifiers into the
arena. -/
structure CommitData where
  committed : Bool := false
  changeParent : Option Uuid := none
  changeChild : Option Uuid := none
deriving Repr, DecidableEq

/-- Scalar payload of each node kind, one constructor per C++ class.
Field order follows the declaration order in the headers. -/
inductive Payload where
  | node                                                             -- Node.h
  | graphNode (title : String)                                       -- GraphNode.h
  | organization (locked : Bool) (name : String)                     -- Organization.h
  | product (c : CommitData) (title description : String)            -- Product.h
  | project (name description : String)                              -- Project.h
  | requirement (c : CommitData) (title text : String)
      (functional : Bool)                                            -- Requirement.h
  | story (c : CommitData) (title goal benefit : String)             -- Story.h
  | useCase (c : CommitData) (name : String)                         -- UseCase.h
  | text (text : String)                                             -- part_008
  | completed (description : String)
  | keyValue (key value : String)
  | timeEstimate (text : String) (estimate : Nat) (started : Bool)
      (startTimestamp : Int)
  | effort (text : String) (effort : Nat)
  | role (who : String)
  | actor (actor : String)
  | goal (action outcome context : String) (targetDate : Nat)
      (targetDateConfidence alignment : String)
  | purpose (description : String) (deadline : Nat)
      (deadlineConfidence : String)
  | person (lastName firstName : String)
  | emailAddress (address : String)
  | phoneNumber (countryCode number phoneType : String)
  | internationalAddress (countryCode : String)
      (addressLines : Option Uuid) (locality postalCode : String)
  | usAddress (addressLines : Option Uuid)
      (city state zipCode : String)
  | event (name description : String)
  | recurringTodo (description : String) (created recurringInterval : Int)
      (seconds dayOfMonth dayOfYear : Bool)                          -- RestFactoryApi.h
  | todo (description : String) (created due : Int) (completed : Bool)
      (dateCompleted : Int) (spawnedFrom : String)                   -- RestFactoryApi.h
  | serverLocator (graphUuid graphTitle graphAddress : String)       -- part_009
deriving Repr, DecidableEq

/-- getNodeType of each kind (the virtual override in each class). -/
def Payload.getNodeType : Payload → String
  | .node => "Node"
  | .graphNode _ => "GraphNode"
  | .organization _ _ => "Organization"
  | .product _ _ _ => "Product"
  | .project _ _ => "Project"
  | .requirement _ _ _ _ => "Requirement"
  | .story _ _ _ _ => "Story"
  | .useCase _ _ => "UseCase"
  | .text _ => "Text"
  | .completed _ => "Completed"
  | .keyValue _ _ => "KeyValue"
  | .timeEstimate _ _ _ _ => "TimeEstimate"
  | .effort _ _ => "Effort"
  | .role _ => "Role"
  | .actor _ => "Actor"
  | .goal _ _ _ _ _ _ => "Goal"
  | .purpose _ _ _ => "Purpose"
  | .person _ _ => "Person"
  | .emailAddress _ => "EmailAddress"
  | .phoneNumber _ _ _ => "PhoneNumber"
  | .internationalAddress _ _ _ _ => "InternationalAddress"
  | .usAddress _ _ _ _ => "USAddress"
  | .event _ _ => "Event"
  | .recurringTodo _ _ _ _ _ _ => "RecurringTodo"
  | .todo _ _ _ _ _ _ => "Todo"
  | .serverLocator _ _ _ => "ServerLocatorNode"

/-- Commitable overlay of a payload: some for the four kinds deriving
CommitableNode, none otherwise. -/
def Payload.commitData : Payload → Option CommitData
  | .product c _ _ => some c
  | .requirement c _ _ _ => some c
  | .story c _ _ _ => some c
  | .useCase c _ => some c
  | _ => none

/-- The kind-specific typed references beyond up and down, in the order
the save traversal and the serializer reach them: changeParent then
changeChild for commitable kinds (CommitableNode::save, and
SaveNodesNode::traverse), then addressLines for the two address kinds
(InternationalAddress::save, USAddress::save). -/
def Payload.extraRefs : Payload → List Uuid
  | .product c _ _ => c.changeParent.toList ++ c.changeChild.toList
  | .requirement c _ _ _ => c.changeParent.toList ++ c.changeChild.toList
  | .story c _ _ _ => c.changeParent.toList ++ c.changeChild.toList
  | .useCase c _ => c.changeParent.toList ++ c.changeChild.toList
  | .internationalAddress _ al _ _ => al.toList
  | .usAddress al _ _ _ => al.toList
  | _ => []

/-! ## In-memory node graphs

A node owns the base-class state of Node.h (up and down link lists,
changed and initted flags) plus its kind payload.  Pointer graphs are
arenas: association lists keyed by identifier, links are identifiers. -/

/-- One in-memory node: the fields of struct Node (Node.h) with the
kind-specific payload.  The id itself is the arena key. -/
structure NodeData where
  up : List Uuid := []
  down : List Uuid := []
  changed : Bool := false
  initted : Bool := false
  payload : Payload := .node
deriving Repr, DecidableEq

/-- A pointer graph: arena of nodes keyed by identifier. -/
abbrev Graph := List (Uuid × NodeData)

/-- Arena lookup (dereferencing a shared pointer by its identifier). -/
def Graph.getNode (g : Graph) (i : Uuid) : Option NodeData :=
  List.lookup i g

/-- All neighbors a traversal reaches from a node: up, then down, then
the kind-specific extra references. -/
def NodeData.allRefs (n : NodeData) : List Uuid :=
  n.up ++ n.down ++ n.payload.extraRefs

/-- A graph is wellformed when its keys are distinct and every
reference of every node is a key (shared pointers always point at live
objects in the source). -/
def Graph.Wf (g : Graph) : Prop :=
  (g.map Prod.fst).Nodup ∧
    ∀ p ∈ g, ∀ r ∈ p.2.allRefs, r ∈ g.map Prod.fst

/-! ## The kind-specific setter API (claims about Requirement.h,
Story.h, UseCase.h, Product.h, Organization.h)

Each class is a record with the base Node fields it inherits plus its
own scalars.  A C++ setter that can throw becomes a function into
Except: an error result models the exception propagating with the
object unmodified (the source throws before assigning). -/

/-- CommitableNode::throwIfCommitted (part_010, lines 153 to 157):
throw NOTCHANGED when the committed flag is set. -/
def throwIfCommitted (committed : Bool) : Except LogicError Unit :=
  if committed then .error .notChanged else .ok ()

/-- Requirement (Requirement.h): base Node fields, the inherited
committed flag, and the three scalar fields. -/
structure Requirement where
  id : Uuid := ""
  up : List Uuid := []
  down : List Uuid := []
  changed : Bool := false
  initted : Bool := false
  committed : Bool := false
  title : String := ""
  text : String := ""
  functional : Bool := false
deriving Repr, DecidableEq

/-- Requirement::setTitle. -/
def Requirement.setTitle (r : Requirement) (title : String) :
    Except LogicError Requirement := do
  throwIfCommitted r.committed
  pure { r with title := title }

/-- Requirement::setText. -/
def Requirement.setText (r : Requirement) (text : String) :
    Except LogicError Requirement := do
  throwIfCommitted r.committed
  pure { r with text := text }

/-- Requirement::setFunctional. -/
def Requirement.setFunctional (r : Requirement) (functional : Bool) :
    Except LogicError Requirement := do
  throwIfCommitted r.committed
  pure { r with functional := functional }

/-- Node::init (Node.h, lines 77 to 83): sets changed and initted and
assigns a freshly generated UUID.  Generation of the v7 UUID is outside
the model; the fresh value is a parameter. -/
def Requirement.init (r : Requirement) (freshUuid : Uuid) : Requirement :=
  { r with changed := true, initted := true, id := freshUuid }

/-- Node::setUuid (Node.h, lines 133 to 137): assigns the identifier
from a string and sets changed. -/
def Requirement.setUuid (r : Requirement) (uuid : Uuid) : Requirement :=
  { r with id := uuid, changed := true }

/-- Story (Story.h). -/
structure Story where
  id : Uuid := ""
  up : List Uuid := []
  down : List Uuid := []
  changed : Bool := false
  initted : Bool := false
  committed : Bool := false
  title : String := ""
  goal : String := ""
  benefit : String := ""
deriving Repr, DecidableEq

/-- Story::setTitle. -/
def Story.setTitle (s : Story) (title : String) : Except LogicError Story := do
  throwIfCommitted s.committed
  pure { s with title := title }

/-- Story::setGoal. -/
def Story.setGoal (s : Story) (goal : String) : Except LogicError Story := do
  throwIfCommitted s.committed
  pure { s with goal := goal }

/-- Story::setBenefit. -/
def Story.setBenefit (s : Story) (benefit : String) : Except LogicError Story := do
  throwIfCommitted s.committed
  pure { s with benefit := benefit }

/-- UseCase (UseCase.h). -/
structure UseCase where
  id : Uuid := ""
  up : List Uuid := []
  down : List Uuid := []
  changed : Bool := false
  initted : Bool := false
  committed : Bool := false
  name : String := ""
deriving Repr, DecidableEq

/-- UseCase::setName. -/
def UseCase.setName (u : UseCase) (name : String) : Except LogicError UseCase := do
  throwIfCommitted u.committed
  pure { u with name := name }

/-- Product (Product.h). -/
structure Product where
  id : Uuid := ""
  up : List Uuid := []
  down : List Uuid := []
  changed : Bool := false
  initted : Bool := false
  committed : Bool := false
  title : String := ""
  description : String := ""
deriving Repr, DecidableEq

/-- Product::setTitle. -/
def Product.setTitle (p : Product) (title : String) : Except LogicError Product := do
  throwIfCommitted p.committed
  pure { p with title := title }

/-- Product::setDescription. -/
def Product.setDescription (p : Product) (description : String) :
    Except LogicError Product := do
  throwIfCommitted p.committed
  pure { p with description := description }

/-- Organization (Organization.h): not commitable; it has a locked flag
instead. -/
structure Organization where
  id : Uuid := ""
  up : List Uuid := []
  down : List Uuid := []
  changed : Bool := false
  initted : Bool := false
  locked : Bool := false
  name : String := ""
deriving Repr, DecidableEq

/-- Organization::setName (Organization.h, lines 60 to 66): assigns the
name when unlocked, throws a logic error when locked. -/
def Organization.setName (o : Organization) (name : String) :
    Except LogicError Organization :=
  if !o.locked then .ok { o with name := name }
  else .error .organizationLocked

/-- Organization::lock. -/
def Organization.lock (o : Organization) : Organization :=
  { o with locked := true }

/-- Organization::unlock. -/
def Organization.unlock (o : Organization) : Organization :=
  { o with locked := false }

/-! ## The change chain (claim about CommitableNode::discardChange)

CommitableNode holds shared pointers to nodes of its own type, so the
change chain is modelled as a finite inductive value: committed flag,
optional change parent, optional change child. -/

/-- A CommitableNode restricted to the state discardChange inspects:
the committed flag and the two change references (part_010). -/
inductive CommitChain where
  | mk (committed : Bool) (changeParent : Option CommitChain)
      (changeChild : Option CommitChain)

/-- CommitableNode::isCommitted. -/
def CommitChain.isCommitted : CommitChain → Bool
  | .mk c _ _ => c

/-- CommitableNode::getChangeChild. -/
def CommitChain.getChangeChild : CommitChain → Option CommitChain
  | .mk _ _ ch => ch

/-- CommitableNode::commit. -/
def CommitChain.commit : CommitChain → CommitChain
  | .mk _ p ch => .mk true p ch

/-- CommitableNode::discardChange (part_010, lines 137 to 150): reset
the change child when it exists and is not committed; when it exists
and is committed, throw NOTDISCARDED; when there is no child, do
nothing.  An error result models the exception with the node left
unmodified. -/
def CommitChain.discardChange : CommitChain → Except LogicError CommitChain
  | .mk c p chOpt =>
    match chOpt with
    | some child =>
      if !child.isCommitted then .ok (.mk c p none)
      else .error .notDiscarded
    | none => .ok (.mk c p none)

/-! ## The worker pool (ThreadPool.h)

The pool is a record of the ThreadPool fields that the claims concern:
the shutdown flag, the coarse state, the workers and the FIFO work
list.  Tasks are opaque values of a type parameter: a run is recorded
by returning the executed tasks in order.  Mutexes, the condition
variable and the task init and setOwner bookkeeping of enqueue have no
observable effect on the queue content and are not modelled. -/

/-- ThreadState (ThreadPool.h, lines 37 to 43). -/
inductive TState where
  | Starting
  | Ready
  | Processing
  | Draining
  | Shutdown
deriving Repr, DecidableEq

/-- One WorkerThread: its own shutdown flag, state, and whether its
backing thread has exited. -/
structure Worker where
  shutdownFlag : Bool := false
  state : TState := .Ready
  exited : Bool := false
deriving Repr, DecidableEq

/-- The ThreadPool fields relevant to the claims.  The field
shutdownFlag mirrors the member variable of the same role; note that
ThreadPool::shutdown never actually sets it (it only sets the worker
flags and the state), which the model reproduces. -/
structure Pool (α : Type) where
  shutdownFlag : Bool := false
  state : TState := .Ready
  threads : List Worker := []
  work : List α := []
deriving Repr

/-- ThreadPool::enqueue (ThreadPool.h, lines 119 to 129): init the task
if needed, set its owner, push it on the back of the work list, notify
one worker.  There is no check of any shutdown flag on this path. -/
def Pool.enqueue (p : Pool α) (task : α) : Pool α :=
  { p with work := p.work ++ [task] }

/-- ThreadPool::requestWork (lines 133 to 141): pop the front of the
work list, or none when the list is empty. -/
def Pool.requestWork (p : Pool α) : Option α × Pool α :=
  match p.work with
  | [] => (none, p)
  | t :: ts => (some t, { p with work := ts })

set_option linter.unusedVariables false in
/-- WorkerThread::drain (lines 193 to 201): request work and run it
until the owner has none left.  Returns the tasks run, in FIFO order,
together with the pool afterwards. -/
def Pool.drain (p : Pool α) : List α × Pool α :=
  match hw : p.work with
  | [] => ([], p)
  | t :: ts =>
    let rest := Pool.drain { p with work := ts }
    (t :: rest.1, rest.2)
termination_by p.work.length
decreasing_by rw [hw]; simp

/-- ThreadPool::shutdown (lines 147 to 153): set the shutdown flag of
every worker, notify all, move the pool state to Draining.  The pool
shutdown member itself is not touched. -/
def Pool.shutdownPool (p : Pool α) : Pool α :=
  { p with threads := p.threads.map (fun w => { w with shutdownFlag := true }),
           state := .Draining }

/-- The tail of WorkerThread::process (lines 225 to 244) once the
shutdown flag is observed: leave the wait loop, drain once more so all
queued work is processed, and exit the backing thread. -/
def Pool.workerExitPhase (p : Pool α) : List α × Pool α :=
  let d := Pool.drain p
  let exitWorker := fun (w : Worker) => { w with state := TState.Shutdown, exited := true }
  (d.1, { d.2 with threads := d.2.threads.map exitWorker })

/-- ThreadPool::join (lines 155 to 162): join every joinable worker,
then set the pool state to Shutdown.  In this sequential model join is
reached after the workers have exited. -/
def Pool.joinPool (p : Pool α) : Pool α :=
  { p with state := .Shutdown }

/-- The cooperative shutdown protocol as the modelled schedule:
shutdown is requested, the workers observe their flags and run their
final drain and exit, the caller joins.  Returns the tasks run during
the final drain and the pool afterwards. -/
def Pool.shutdownSequence (p : Pool α) : List α × Pool α :=
  let p1 := Pool.shutdownPool p
  let d := Pool.workerExitPhase p1
  (d.1, Pool.joinPool d.2)

/-! ## The relational store (schema of §6: node, node_associations and
the kind-specific tables)

Tables are lists of rows; SQL statements become list operations on a Db
value.  A kind-specific row keeps the whole payload as its column
content: the claims only depend on which rows exist and on whether a
write happened, never on the column encoding. -/

/-- One row of node_associations: columns id, association, type. -/
structure AssocRow where
  rowId : Uuid
  association : Uuid
  direction : String
deriving Repr, DecidableEq

/-- One row of a kind-specific table (requirement, story, ...): the
table is identified by the kind name, the row by the node identifier,
and the scalar columns are kept as the payload value itself. -/
structure SpecificRow where
  kind : String
  rowId : Uuid
  data : Payload
deriving Repr, DecidableEq

/-- The store: the node table, the node_associations table and the
union of all kind-specific tables. -/
structure Db where
  nodeRows : List (Uuid × String) := []
  assocRows : List AssocRow := []
  specificRows : List SpecificRow := []
deriving Repr, DecidableEq

/-- Rows of node_associations whose id column is the given identifier. -/
def Db.assocRowsFor (db : Db) (i : Uuid) : List AssocRow :=
  db.assocRows.filter (fun r => r.rowId = i)

/-- Rows of the node table for the given identifier. -/
def Db.nodeRowsFor (db : Db) (i : Uuid) : List (Uuid × String) :=
  db.nodeRows.filter (fun r => r.1 = i)

/-- Rows of the kind-specific tables for the given identifier. -/
def Db.specificRowsFor (db : Db) (i : Uuid) : List SpecificRow :=
  db.specificRows.filter (fun r => r.rowId = i)

/-! ## The save path (PqDatabase.h: SaveNodesNode) -/

/-- The SpecificSaveableTypes typelist of SaveNodesNode (PqDatabase.h,
lines 53 to 57), by kind name.  Node, GraphNode, Todo, RecurringTodo
and ServerLocatorNode are absent from the list: for them the cast chain
of saveSpecificData falls through and no kind-specific row is written. -/
def specificSaveableKinds : List String :=
  ["Organization", "Product", "Project", "Requirement", "Story", "UseCase",
   "Text", "Completed", "KeyValue", "TimeEstimate", "Effort", "Role",
   "Actor", "Goal", "Purpose", "Person", "EmailAddress", "PhoneNumber",
   "InternationalAddress", "USAddress", "Event"]

/-- database::nodeInTable for the kind-specific table of a kind:
SELECT id FROM table WHERE id = X. -/
def Db.nodeInTable (db : Db) (kind : String) (i : Uuid) : Bool :=
  db.specificRows.any (fun r => r.kind == kind && r.rowId == i)

/-- SaveNodesNode::saveSpecificData (PqDatabase.h, lines 114 to 143):
walk the typelist until the node casts to a listed kind, then insert or
update its kind-specific row depending on nodeInTable; an unlisted kind
falls off the list and nothing is written. -/
def saveSpecificData (db : Db) (i : Uuid) (p : Payload) : Db :=
  let kind := p.getNodeType
  if kind ∈ specificSaveableKinds then
    if db.nodeInTable kind i then
      { db with specificRows := db.specificRows.map (fun r =>
          if r.kind == kind && r.rowId == i then { r with data := p } else r) }
    else
      { db with specificRows := db.specificRows ++ [⟨kind, i, p⟩] }
  else db

/-- SaveNodesNode::nodeInDb (PqDatabase.h, lines 148 to 157):
SELECT id FROM node WHERE id = X. -/
def Db.nodeInDb (db : Db) (i : Uuid) : Bool :=
  db.nodeRows.any (fun r => r.1 == i)

/-- SaveNodesNode::clearNodeDBAssociations (PqDatabase.h, lines 163 to
166): DELETE FROM node_associations WHERE id = X. -/
def clearNodeDBAssociations (db : Db) (i : Uuid) : Db :=
  { db with assocRows := db.assocRows.filter (fun r => ¬(r.rowId = i)) }

/-- SaveNodesNode::dbSaveNode (PqDatabase.h, lines 179 to 214): when
the node row exists, clear its association rows; otherwise insert the
node row.  Then stream one up row per up entry and one down row per
down entry into node_associations, and finally write the kind-specific
row via saveSpecificData. -/
def dbSaveNode (i : Uuid) (n : NodeData) (db : Db) : Db :=
  let db1 :=
    if db.nodeInDb i then clearNodeDBAssociations db i
    else { db with nodeRows := db.nodeRows ++ [(i, n.payload.getNodeType)] }
  let upRows := n.up.map (fun u => AssocRow.mk i u "up")
  let downRows := n.down.map (fun d => AssocRow.mk i d "down")
  let db2 := { db1 with assocRows := db1.assocRows ++ (upRows ++ downRows) }
  saveSpecificData db2 i n.payload

/-- Replace the stored record of one node in the arena (the in-place
mutation startingNode->changed = false of the source). -/
def Graph.setNode (g : Graph) (i : Uuid) (n : NodeData) : Graph :=
  g.map (fun p => if p.1 = i then (p.1, n) else p)

/-- insert into the _alreadySaved map (keys only; the mapped pointer is
recovered from the arena). -/
def insertId (l : List Uuid) (i : Uuid) : List Uuid :=
  if i ∈ l then l else l ++ [i]

/-- Traversal state of SaveNodesNode::traverse: the _alreadySaved map
(keys) and the single-node saver tasks created and enqueued so far, in
creation order. -/
structure TravState where
  alreadySaved : List Uuid := []
  enqueued : List Uuid := []
deriving Repr, DecidableEq

/-- SaveNodesNode::traverse (PqDatabase.h, lines 222 to 300): record
the node in _alreadySaved; when its changed flag is true, create a
single-node saver for it and enqueue it; then recurse into unvisited up
neighbors, unvisited down neighbors, the unvisited commitable change
references, and (without a visited check, as in the source) the address
lines reference.  Fuel bounds the recursion depth; the source recursion
is bounded because _alreadySaved grows at every new node. -/
def SaveNodesNode.traverse (g : Graph) : Nat → Uuid → TravState → TravState
  | 0, _, st => st
  | fuel + 1, i, st =>
    match g.getNode i with
    | none => st
    | some n =>
      let st := { st with alreadySaved := insertId st.alreadySaved i }
      let st :=
        if n.changed then { st with enqueued := st.enqueued ++ [i] } else st
      let st := n.up.foldl
        (fun st u =>
          if st.alreadySaved.contains u then st
          else SaveNodesNode.traverse g fuel u
            { st with alreadySaved := insertId st.alreadySaved u }) st
      let st := n.down.foldl
        (fun st d =>
          if st.alreadySaved.contains d then st
          else SaveNodesNode.traverse g fuel d
            { st with alreadySaved := insertId st.alreadySaved d }) st
      let commitRefs := match n.payload.commitData with
        | some c => c.changeParent.toList ++ c.changeChild.toList
        | none => []
      let st := commitRefs.foldl
        (fun st r =>
          if st.alreadySaved.contains r then st
          else SaveNodesNode.traverse g fuel r
            { st with alreadySaved := insertId st.alreadySaved r }) st
      let addressRefs := match n.payload with
        | .internationalAddress _ al _ _ => al.toList
        | .usAddress al _ _ _ => al.toList
        | _ => []
      addressRefs.foldl (fun st r => SaveNodesNode.traverse g fuel r st) st

/-- SaveNodesNode::run (PqDatabase.h, lines 327 to 366): when the
starting node is changed, reset its changed flag, save it with
dbSaveNode and record it in _alreadySaved; then, unless
saveThisNodeOnly, traverse the up and the down lists, producing the
enqueued single-node saver tasks.  Returns the mutated arena, the
store, and the enqueued task list. -/
def SaveNodesNode.run (g : Graph) (fuel : Nat) (startingNode : Uuid)
    (saveThisNodeOnly : Bool) (db : Db) : Graph × Db × List Uuid :=
  match g.getNode startingNode with
  | none => (g, db, [])
  | some n =>
    let step :
        Graph × Db × TravState :=
      if n.changed then
        let n1 := { n with changed := false }
        (Graph.setNode g startingNode n1, dbSaveNode startingNode n1 db,
         { alreadySaved := [startingNode], enqueued := [] })
      else (g, db, { alreadySaved := [], enqueued := [] })
    let g1 := step.1
    let db1 := step.2.1
    let st0 := step.2.2
    if saveThisNodeOnly then (g1, db1, st0.enqueued)
    else
      let st1 := n.up.foldl (fun st u => SaveNodesNode.traverse g1 fuel u st) st0
      let st2 := n.down.foldl (fun st d => SaveNodesNode.traverse g1 fuel d st) st1
      (g1, db1, st2.enqueued)

/-- Running one enqueued single-node saver task (a SaveNodesNode built
with saveThisNodeOnly = true) on the current arena and store. -/
def runSaverTask (acc : Graph × Db) (i : Uuid) : Graph × Db :=
  let r := SaveNodesNode.run acc.1 0 i true acc.2
  (r.1, r.2.1)

/-- The whole save pipeline under a FIFO single-worker schedule: run
the root SaveNodesNode, then run every saver task it enqueued, in
order.  (A task built with saveThisNodeOnly = true enqueues nothing
further.) -/
def saveClosure (g : Graph) (fuel : Nat) (root : Uuid) (db : Db) :
    Graph × Db :=
  let r := SaveNodesNode.run g fuel root false db
  r.2.2.foldl runSaverTask (r.1, r.2.1)

/-! ## The graph factory (PqNodeFactory.h) -/

/-- The NodeList typelist of NodeAllocator (PqNodeFactory.h, lines 53
to 57), by the name each DbSpecificData specialization declares (which
equals the getNodeType string of the kind). -/
def allocatorKinds : List String :=
  ["GraphNode", "Organization", "Product", "Project", "Requirement",
   "Story", "UseCase", "Text", "Completed", "KeyValue", "TimeEstimate",
   "Effort", "Role", "Actor", "Goal", "Purpose", "Person", "EmailAddress",
   "PhoneNumber", "InternationalAddress", "USAddress", "Event"]

/-- A node freshly produced by the allocator: its dynamic kind (the
getNodeType of the allocated class), its identifier (set through
setUuid, which also sets changed), and the initted flag. -/
structure AllocatedNode where
  kind : String
  id : Uuid
  changed : Bool
  initted : Bool
deriving Repr, DecidableEq

/-- NodeAllocator::getNode (PqNodeFactory.h, lines 63 to 92): walk the
typelist; on a name match allocate that kind and set its UUID; when the
whole list is exhausted without a match, allocate a plain Node with the
UUID set, so the result is never null. -/
def NodeAllocator.getNode : List String → String → Uuid → AllocatedNode
  | [], _, uuid => { kind := "Node", id := uuid, changed := true, initted := false }
  | k :: rest, nodeType, uuid =>
    if nodeType = k then { kind := k, id := uuid, changed := true, initted := false }
    else NodeAllocator.getNode rest nodeType uuid

/-- NodeAllocator::get (PqNodeFactory.h, lines 99 to 101). -/
def NodeAllocator.get (nodeType : String) (uuid : Uuid) : AllocatedNode :=
  NodeAllocator.getNode allocatorKinds nodeType uuid

/-- PqNodeFactory::getNodeType (PqNodeFactory.h, lines 214 to 227):
SELECT node_type FROM node WHERE id; the loop keeps the last returned
row and an empty result leaves the empty string. -/
def Db.getNodeTypeOf (db : Db) (uuid : Uuid) : String :=
  db.nodeRows.foldl (fun acc row => if row.1 = uuid then row.2 else acc) ""

/-- PqNodeFactory::startLoading (PqNodeFactory.h, lines 229 to 239):
look the kind name up; when it is nonempty, allocate through the
allocator and force initted to true so traversal will not re-init the
node; otherwise return a null pointer. -/
def startLoading (db : Db) (uuid : Uuid) : Option AllocatedNode :=
  let nodeType := db.getNodeTypeOf uuid
  if nodeType ≠ "" then
    let ret := NodeAllocator.get nodeType uuid
    some { ret with initted := true }
  else none

/-- The one fault the factory model can hit: dereferencing a null
shared pointer (undefined behaviour in the C++ source). -/
inductive FactoryFault where
  | nullDeref
deriving Repr, DecidableEq

/-- Dereference a possibly-null node reference (calling idString on
it).  none models a null shared_ptr; dereferencing it is the fault. -/
def derefId : Option Uuid → Except FactoryFault Uuid
  | some i => .ok i
  | none => .error .nullDeref

/-- The containment loop of PqNodeFactory::addToUpDown: for every entry
already in the list, compare entry->idString() with toAdd->idString().
Both dereferences happen inside the loop body, so a null toAdd is only
dereferenced when the list is nonempty. -/
def containsRef : List (Option Uuid) → Option Uuid → Except FactoryFault Bool
  | [], _ => .ok false
  | e :: rest, toAdd => do
    let eid ← derefId e
    let aid ← derefId toAdd
    let found ← containsRef rest toAdd
    pure (found || (eid == aid))

/-- PqNodeFactory::addToUpDown (PqNodeFactory.h, lines 242 to 252):
push the reference unless an entry with the same idString is already
present. -/
def addToUpDown (upDown : List (Option Uuid)) (toAdd : Option Uuid) :
    Except FactoryFault (List (Option Uuid)) := do
  let found ← containsRef upDown toAdd
  if found then pure upDown else pure (upDown ++ [toAdd])

/-- The node a factory run is currently wiring: its identifier and its
up and down lists of possibly-null references. -/
structure LoadingNode where
  id : Uuid
  up : List (Option Uuid) := []
  down : List (Option Uuid) := []
deriving Repr, DecidableEq

/-- Resolution of one association row inside PqNodeFactory::process
(lines 277 to 288): reuse the node from _alreadyLoaded when present,
else startLoading it (recursively processing it when non-null); when
startLoading returns null the reference stays null. -/
def resolveNeighbor (db : Db) (alreadyLoaded : List Uuid)
    (association : Uuid) : Option Uuid :=
  if alreadyLoaded.contains association then some association
  else
    match startLoading db association with
    | some n => some n.id
    | none => none

/-- The tail of the loop body of PqNodeFactory::process (lines 289 to
293): append the resolved reference to the up or the down list of the
current node according to the type column. -/
def processRow (db : Db) (alreadyLoaded : List Uuid) (node : LoadingNode)
    (row : AssocRow) : Except FactoryFault LoadingNode :=
  let nextNode := resolveNeighbor db alreadyLoaded row.association
  if row.direction = "up" then do
    let up1 ← addToUpDown node.up nextNode
    pure { node with up := up1 }
  else do
    let down1 ← addToUpDown node.down nextNode
    pure { node with down := down1 }

/-- The whole association loop of PqNodeFactory::process for one node:
fold processRow over the rows returned by
SELECT association, type FROM node_associations WHERE id = node. -/
def processRows (db : Db) (alreadyLoaded : List Uuid)
    (node : LoadingNode) (rows : List AssocRow) :
    Except FactoryFault LoadingNode :=
  rows.foldlM (processRow db alreadyLoaded) node

/-! ## The REST route handlers (GraphServer.h, in part_009) -/

/-- An HTTP response as sent by Pistache ResponseWriter::send. -/
structure HttpResponse where
  code : Nat
  body : String
deriving Repr, DecidableEq

/-- A cereal exception: a deserialization failure, or the error cereal
throws when asked to (de)serialize a polymorphic pointer to a class
that was never passed to CEREAL_REGISTER_TYPE. -/
inductive CerealError where
  | deserialization (msg : String)
  | unregisteredPolymorphicType (name : String)
deriving Repr, DecidableEq

/-- What a route handler does from the client's point of view: send a
response, or never answer at all. -/
inductive RouteOutcome where
  | response (r : HttpResponse)
  | blocked
deriving Repr, DecidableEq

/-- GraphServer::graph (part_009, lines 390 to 421): enqueue a
PqNodeFactory for the identifier and wait on a condition variable until
the factory signals done.  done is emitted from graphLoaded(), which
runs only inside the loaded callbacks of the PqNodeLoader workers that
process() spawns; when startLoading yields a null root, run() calls
process() on nothing, no worker is spawned, done never fires and the
wait never returns.  The outer none therefore models a call that never
returns; when the call does return, the root handed back is the
(non-null) allocated root. -/
def GraphServer.graphAwait (db : Db) (i : Uuid) : Option (Option AllocatedNode) :=
  match startLoading db i with
  | some root => some (some root)
  | none => none

/-- Stand-in for the 200 body (the cereal JSON of the loaded graph);
its content is outside every claim about the routes. -/
def renderGraph (n : AllocatedNode) : String :=
  n.kind

/-- The GET /graph/:id route (part_009, lines 471 to 490): empty id
gives the error helper with its default code 400 Bad_Request;
otherwise the handler calls graph(id) — which may never return — and
then tests the result for null (the 404 branch, kept here although
graphAwait never delivers a null result) before answering 200 with the
serialized graph. -/
def GraphServer.graphRoute (db : Db) (idParam : String) : RouteOutcome :=
  if idParam = "" then
    .response { code := 400, body := "Empty/No ID specified" }
  else
    match GraphServer.graphAwait db idParam with
    | none => .blocked
    | some none => .response { code := 404, body := "ID not found" }
    | some (some n) => .response { code := 200, body := renderGraph n }

/-- The POST /graph/:id route (part_009, lines 492 to 517): deserialize
the body — with no try block, so a cereal failure propagates out of
the handler — then enqueue a SaveNodesNode for the node and answer
200 OK.  The input is the outcome of the deserialization and the result
carries the response together with the value handed to postGraph. -/
def GraphServer.postRoute {α : Type} (parsed : Except CerealError α) :
    Except CerealError (HttpResponse × α) := do
  let node ← parsed
  pure ({ code := 200, body := "OK" }, node)

/-! ## The JSON serializer (cereal archives over the node graph)

Node::to_json archives the root shared pointer; cereal then walks the
object graph, emitting each shared object once in first-visit order and
back references afterwards.  The model flattens that archive into a
list of per-node records in first-visit order: each record keeps the
identifier, the kind key (the NVP name that dispatches ingestion), the
up and down identifier lists (Node::save), the commitable section when
the kind has one (CommitableNode::save), and the list of scalar values
the save member of the kind writes, in writing order.  Ingestion
(loadGraph) rebuilds an arena by running the load member of each kind
on its record; a record whose shape the load member cannot consume is a
cereal Deserialization failure, modelled as none. -/

/-- One scalar value written to the archive by a save member. -/
inductive FieldVal where
  | s (v : String)
  | i (v : Int)
  | n (v : Nat)
  | b (v : Bool)
  | ref (v : Option Uuid)
deriving Repr, DecidableEq

/-- The scalar fields each kind's save member writes, in writing order
(after the base-class part).  Todo::save (RestFactoryApi.h, lines 342
to 350) writes description, created, due, completed and spawnedFrom but
not dateCompleted.  Product::save writes title and description. -/
def Payload.saveFields : Payload → List FieldVal
  | .node => []
  | .graphNode title => [.s title]
  | .organization locked name => [.b locked, .s name]
  | .product _ title description => [.s title, .s description]
  | .project name description => [.s name, .s description]
  | .requirement _ title txt functional => [.s title, .s txt, .b functional]
  | .story _ title goalStr benefit => [.s title, .s goalStr, .s benefit]
  | .useCase _ name => [.s name]
  | .text txt => [.s txt]
  | .completed description => [.s description]
  | .keyValue key value => [.s key, .s value]
  | .timeEstimate txt estimate started startTimestamp =>
      [.s txt, .n estimate, .b started, .i startTimestamp]
  | .effort txt effortN => [.s txt, .n effortN]
  | .role who => [.s who]
  | .actor actorStr => [.s actorStr]
  | .goal action outcome context targetDate targetDateConfidence alignment =>
      [.s action, .s outcome, .s context, .n targetDate,
       .s targetDateConfidence, .s alignment]
  | .purpose description deadline deadlineConfidence =>
      [.s description, .n deadline, .s deadlineConfidence]
  | .person lastName firstName => [.s lastName, .s firstName]
  | .emailAddress address => [.s address]
  | .phoneNumber countryCode number phoneType =>
      [.s countryCode, .s number, .s phoneType]
  | .internationalAddress countryCode addressLines locality postalCode =>
      [.s countryCode, .ref addressLines, .s locality, .s postalCode]
  | .usAddress addressLines city state zipCode =>
      [.ref addressLines, .s city, .s state, .s zipCode]
  | .event name description => [.s name, .s description]
  | .recurringTodo description created recurringInterval seconds dayOfMonth dayOfYear =>
      [.s description, .i created, .i recurringInterval, .b seconds,
       .b dayOfMonth, .b dayOfYear]
  | .todo description created due completedB _dateCompleted spawnedFrom =>
      [.s description, .i created, .i due, .b completedB, .s spawnedFrom]
  | .serverLocator graphUuid graphTitle graphAddress =>
      [.s graphUuid, .s graphTitle, .s graphAddress]

/-- One archived node record. -/
structure Entry where
  id : Uuid
  kind : String
  up : List Uuid
  down : List Uuid
  commit : Option CommitData
  fields : List FieldVal
deriving Repr, DecidableEq

/-- Archive one node: Node::save writes the id and the up and down
lists; CommitableNode::save adds the committed flag and the change
references for the four commitable kinds; the derived save member adds
the scalar fields. -/
def saveEntry (i : Uuid) (nd : NodeData) : Entry :=
  { id := i
    kind := nd.payload.getNodeType
    up := nd.up
    down := nd.down
    commit := nd.payload.commitData
    fields := nd.payload.saveFields }

/-- The load member of each kind applied to an archived record: the
kind key dispatches to a class whose load reads the base part, the
commitable part when it has one, and then its scalar fields in order.
Product::load (Product.h, lines 76 to 79) reads only the base part, so
the title and description values in the record are dropped and the
default-constructed empty strings remain.  Todo::load (RestFactoryApi.h,
lines 352 to 363) reads the five archived values, leaving dateCompleted
at the constructor default 0. -/
def loadPayload : String → Option CommitData → List FieldVal → Option Payload
  | "Node", none, [] => some .node
  | "GraphNode", none, [.s title] => some (.graphNode title)
  | "Organization", none, [.b locked, .s name] => some (.organization locked name)
  | "Product", some c, _ => some (.product c "" "")
  | "Project", none, [.s name, .s description] => some (.project name description)
  | "Requirement", some c, [.s title, .s text, .b functional] =>
      some (.requirement c title text functional)
  | "Story", some c, [.s title, .s goal, .s benefit] =>
      some (.story c title goal benefit)
  | "UseCase", some c, [.s name] => some (.useCase c name)
  | "Text", none, [.s text] => some (.text text)
  | "Completed", none, [.s description] => some (.completed description)
  | "KeyValue", none, [.s key, .s value] => some (.keyValue key value)
  | "TimeEstimate", none, [.s text, .n estimate, .b started, .i startTimestamp] =>
      some (.timeEstimate text estimate started startTimestamp)
  | "Effort", none, [.s text, .n effort] => some (.effort text effort)
  | "Role", none, [.s who] => some (.role who)
  | "Actor", none, [.s actor] => some (.actor actor)
  | "Goal", none, [.s action, .s outcome, .s context, .n targetDate,
      .s targetDateConfidence, .s alignment] =>
      some (.goal action outcome context targetDate targetDateConfidence alignment)
  | "Purpose", none, [.s description, .n deadline, .s deadlineConfidence] =>
      some (.purpose description deadline deadlineConfidence)
  | "Person", none, [.s lastName, .s firstName] => some (.person lastName firstName)
  | "EmailAddress", none, [.s address] => some (.emailAddress address)
  | "PhoneNumber", none, [.s countryCode, .s number, .s phoneType] =>
      some (.phoneNumber countryCode number phoneType)
  | "InternationalAddress", none,
      [.s countryCode, .ref addressLines, .s locality, .s postalCode] =>
      some (.internationalAddress countryCode addressLines locality postalCode)
  | "USAddress", none, [.ref addressLines, .s city, .s state, .s zipCode] =>
      some (.usAddress addressLines city state zipCode)
  | "Event", none, [.s name, .s description] => some (.event name description)
  | "RecurringTodo", none, [.s description, .i created, .i recurringInterval,
      .b seconds, .b dayOfMonth, .b dayOfYear] =>
      some (.recurringTodo description created recurringInterval seconds
        dayOfMonth dayOfYear)
  | "Todo", none, [.s description, .i created, .i due, .b completed,
      .s spawnedFrom] =>
      some (.todo description created due completed 0 spawnedFrom)
  | "ServerLocatorNode", none, [.s graphUuid, .s graphTitle, .s graphAddress] =>
      some (.serverLocator graphUuid graphTitle graphAddress)
  | _, _, _ => none

/-- Ingest one archived record: a freshly default-constructed node gets
the identifier, the up and down lists, and whatever its load member
reads; changed and initted stay at their constructor defaults. -/
def loadEntry (e : Entry) : Option NodeData :=
  (loadPayload e.kind e.commit e.fields).map (fun p =>
    { up := e.up, down := e.down, changed := false, initted := false,
      payload := p })

/-- First-visit order of the cereal shared-pointer walk, as a worklist
traversal: the head of the worklist is emitted when unseen and its
references (up, then down, then the kind-specific extras) are pushed;
an already-seen head is a back reference and is skipped.  Fuel bounds
the number of steps. -/
def archiveOrder (g : Graph) : Nat → List Uuid → List Uuid → List Uuid
  | 0, visited, _ => visited
  | _ + 1, visited, [] => visited
  | fuel + 1, visited, i :: rest =>
    if i ∈ visited then archiveOrder g fuel visited rest
    else
      match g.getNode i with
      | none => archiveOrder g fuel (visited ++ [i]) rest
      | some n => archiveOrder g fuel (visited ++ [i]) (n.allRefs ++ rest)

/-- Whether the kind of a payload is passed to CEREAL_REGISTER_TYPE
anywhere in the repository.  Todo and RecurringTodo (RestFactoryApi.h),
EmailAddress (part_008) and ServerLocatorNode (part_009) are never
registered; the plain Node base needs no registration because cereal
serializes a pointer whose dynamic type equals its static type
directly. -/
def Payload.cerealRegistered : Payload → Bool
  | .todo _ _ _ _ _ _ => false
  | .recurringTodo _ _ _ _ _ _ => false
  | .emailAddress _ => false
  | .serverLocator _ _ _ => false
  | _ => true

/-- Serialize the reachable graph from a root: the walk of the cereal
archive emits one record per first-visited identifier that the arena
resolves — unless it reaches a node whose class was never registered,
in which case cereal throws its unregistered-polymorphic-type error and
no archive is produced. -/
def saveGraph (g : Graph) (fuel : Nat) (r : Uuid) : Except CerealError (List Entry) :=
  match (archiveOrder g fuel [] [r]).find? (fun i =>
    match g.getNode i with
    | some nd => ! nd.payload.cerealRegistered
    | none => false) with
  | some i =>
    .error (.unregisteredPolymorphicType
      (((g.getNode i).map (fun nd => nd.payload.getNodeType)).getD ""))
  | none =>
    .ok ((archiveOrder g fuel [] [r]).filterMap
      (fun i => (g.getNode i).map (saveEntry i)))

/-- Whether every node the archive walk reaches is of a registered
kind, i.e. whether the cereal save completes without throwing. -/
def archiveRegistered (g : Graph) (fuel : Nat) (r : Uuid) : Bool :=
  (archiveOrder g fuel [] [r]).all (fun i =>
    match g.getNode i with
    | some nd => nd.payload.cerealRegistered
    | none => true)

/-- Ingest a whole archive back into an arena; any record that fails to
load is a Deserialization failure for the whole document. -/
def loadGraph (entries : List Entry) : Option Graph :=
  entries.mapM (fun e => (loadEntry e).map (fun nd => (e.id, nd)))

/-- What one node becomes after a save and load round trip: links and
flags-carrying commit state survive; the payload survives except that
Product loses its title and description (its load reads none of its
fields) and Todo loses dateCompleted (its save never writes it). -/
def roundPayload : Payload → Payload
  | .product c _ _ => .product c "" ""
  | .todo description created due completed _ spawnedFrom =>
      .todo description created due completed 0 spawnedFrom
  | p => p

/-- Round trip image of a whole node record. -/
def roundNode (nd : NodeData) : NodeData :=
  { nd with payload := roundPayload nd.payload, changed := false, initted := false }

/-- Round trip image of a whole graph: the arena a save followed by a
load reconstructs — one entry per first-visited resolvable identifier,
each node mapped through roundNode. -/
def roundGraph (g : Graph) (fuel : Nat) (r : Uuid) : Graph :=
  (archiveOrder g fuel [] [r]).filterMap
    (fun j => (g.getNode j).map (fun nd => (j, roundNode nd)))

/-- The whole JSON round trip: serialize (which may throw on an
unregistered kind) and, when an archive was produced, ingest it. -/
def jsonRoundTrip (g : Graph) (fuel : Nat) (r : Uuid) :
    Except CerealError (Option Graph) :=
  (saveGraph g fuel r).map loadGraph

/-! ## Concrete instances used by counterexamples and witnesses -/

/-- A two-node graph: a changed root R whose down list holds an
unchanged node X (X links back up to R). -/
def c1Graph : Graph :=
  [("R", { up := [], down := ["X"], changed := true, payload := .node }),
   ("X", { up := ["R"], down := [], changed := false, payload := .node })]

/-- The record of X in c1Graph. -/
def c1NodeX : NodeData :=
  { up := ["R"], down := [], changed := false, payload := .node }

/-- A graph holding a Todo with a nonzero dateCompleted and a Product
with a nonempty title and description. -/
def c3Graph : Graph :=
  [("T1", { down := ["P1"],
            payload := .todo "write spec" 10 20 true 5 "" }),
   ("P1", { up := ["T1"],
            payload := .product {} "Widget" "A fine widget" })]

/-- A one-node graph of a registered kind: a Product with a nonempty
title and description. -/
def c3bGraph : Graph :=
  [("P1", { payload := .product {} "Widget" "A fine widget" })]

/-- A pool with one worker and two queued tasks. -/
def poolEx : Pool Nat :=
  { threads := [{}], work := [1, 2] }

/-! # Theorems -/

/-- Folding a step that preserves a predicate preserves it. -/
theorem foldl_preserve {α β : Type} {f : β → α → β} {P : β → Prop}
    (h : ∀ b a, P b → P (f b a)) :
    ∀ (l : List α) (b : β), P b → P (l.foldl f b) := by
  intro l
  induction l with
  | nil => intro b hb; exact hb
  | cons a l ih => intro b hb; exact ih (f b a) (h b a hb)

/-- No getNodeType string is empty: every node row the save path writes
therefore carries a nonempty kind name. -/
theorem payload_getNodeType_ne_empty (p : Payload) : p.getNodeType ≠ "" := by
  cases p <;> simp [Payload.getNodeType]

/-- C6 counterexample: on a fresh, uncommitted Requirement the setter
setTitle succeeds and the changed flag of the result is still false
(Requirement::setTitle assigns the field without touching changed), and
likewise for Organization::setName on an unlocked Organization; the
claim says the flag would be true after any successful scalar setter. -/
theorem c6_counterexample :
    Requirement.setTitle {} "t" = .ok { title := "t" } ∧
    ({ title := "t" } : Requirement).changed = false ∧
    Organization.setName {} "n" = .ok { name := "n" } ∧
    ({ name := "n" } : Organization).changed = false :=
  ⟨rfl, rfl, rfl, rfl⟩

/-- C6 amended: the kind-specific scalar setters leave the changed flag
exactly as it was (they only assign their field after the committed or
locked check); the changed flag is set only by Node::init and
Node::setUuid. -/
theorem c6_setters_do_not_touch_changed :
    ∀ (r r' : Requirement) (o o' : Organization) (st st' : Story)
      (u u' : UseCase) (p p' : Product) (v : String) (b : Bool) (uu : Uuid),
      (Requirement.setTitle r v = .ok r' → r'.changed = r.changed) ∧
      (Requirement.setText r v = .ok r' → r'.changed = r.changed) ∧
      (Requirement.setFunctional r b = .ok r' → r'.changed = r.changed) ∧
      (Story.setTitle st v = .ok st' → st'.changed = st.changed) ∧
      (Story.setGoal st v = .ok st' → st'.changed = st.changed) ∧
      (Story.setBenefit st v = .ok st' → st'.changed = st.changed) ∧
      (UseCase.setName u v = .ok u' → u'.changed = u.changed) ∧
      (Product.setTitle p v = .ok p' → p'.changed = p.changed) ∧
      (Product.setDescription p v = .ok p' → p'.changed = p.changed) ∧
      (Organization.setName o v = .ok o' → o'.changed = o.changed) ∧
      (Organization.lock o).changed = o.changed ∧
      (Organization.unlock o).changed = o.changed ∧
      (Requirement.init r uu).changed = true ∧
      (Requirement.setUuid r uu).changed = true := by
  intro r r' o o' st st' u u' p p' v b uu
  refine ⟨?_, ?_, ?_, ?_, ?_, ?_, ?_, ?_, ?_, ?_, rfl, rfl, rfl, rfl⟩ <;> intro h
  · cases hc : r.committed <;>
      simp [Requirement.setTitle, throwIfCommitted, hc] at h
    rw [← h]
  · cases hc : r.committed <;>
      simp [Requirement.setText, throwIfCommitted, hc] at h
    rw [← h]
  · cases hc : r.committed <;>
      simp [Requirement.setFunctional, throwIfCommitted, hc] at h
    rw [← h]
  · cases hc : st.committed <;>
      simp [Story.setTitle, throwIfCommitted, hc] at h
    rw [← h]
  · cases hc : st.committed <;>
      simp [Story.setGoal, throwIfCommitted, hc] at h
    rw [← h]
  · cases hc : st.committed <;>
      simp [Story.setBenefit, throwIfCommitted, hc] at h
    rw [← h]
  · cases hc : u.committed <;>
      simp [UseCase.setName, throwIfCommitted, hc] at h
    rw [← h]
  · cases hc : p.committed <;>
      simp [Product.setTitle, throwIfCommitted, hc] at h
    rw [← h]
  · cases hc : p.committed <;>
      simp [Product.setDescription, throwIfCommitted, hc] at h
    rw [← h]
  · cases hl : o.locked <;>
      simp [Organization.setName, hl] at h
    rw [← h]

/-- C6 amended, witness: applying the theorem at concrete inputs. -/
theorem c6_setters_do_not_touch_changed_witness :
    ({ title := "t" } : Requirement).changed = ({} : Requirement).changed :=
  (c6_setters_do_not_touch_changed {} { title := "t" } {} {} {} {} {} {} {} {}
    "t" true "u").1 rfl

/-- C7: for the four commitable kinds every kind-specific scalar setter
raises NotChanged exactly when the committed flag is set, and when it
does not raise it assigns exactly the targeted field; an error result
models the exception thrown before any assignment, so the field is
unchanged on the raising path. -/
theorem c7_setters_characterization :
    ∀ (r : Requirement) (st : Story) (u : UseCase) (p : Product)
      (v : String) (b : Bool),
      (Requirement.setTitle r v =
        if r.committed then .error .notChanged else .ok { r with title := v }) ∧
      (Requirement.setText r v =
        if r.committed then .error .notChanged else .ok { r with text := v }) ∧
      (Requirement.setFunctional r b =
        if r.committed then .error .notChanged else .ok { r with functional := b }) ∧
      (Story.setTitle st v =
        if st.committed then .error .notChanged else .ok { st with title := v }) ∧
      (Story.setGoal st v =
        if st.committed then .error .notChanged else .ok { st with goal := v }) ∧
      (Story.setBenefit st v =
        if st.committed then .error .notChanged else .ok { st with benefit := v }) ∧
      (UseCase.setName u v =
        if u.committed then .error .notChanged else .ok { u with name := v }) ∧
      (Product.setTitle p v =
        if p.committed then .error .notChanged else .ok { p with title := v }) ∧
      (Product.setDescription p v =
        if p.committed then .error .notChanged else .ok { p with description := v }) := by
  intro r st u p v b
  refine ⟨?_, ?_, ?_, ?_, ?_, ?_, ?_, ?_, ?_⟩
  · cases hc : r.committed <;> simp [Requirement.setTitle, throwIfCommitted, hc]
  · cases hc : r.committed <;> simp [Requirement.setText, throwIfCommitted, hc]
  · cases hc : r.committed <;> simp [Requirement.setFunctional, throwIfCommitted, hc]
  · cases hc : st.committed <;> simp [Story.setTitle, throwIfCommitted, hc]
  · cases hc : st.committed <;> simp [Story.setGoal, throwIfCommitted, hc]
  · cases hc : st.committed <;> simp [Story.setBenefit, throwIfCommitted, hc]
  · cases hc : u.committed <;> simp [UseCase.setName, throwIfCommitted, hc]
  · cases hc : p.committed <;> simp [Product.setTitle, throwIfCommitted, hc]
  · cases hc : p.committed <;> simp [Product.setDescription, throwIfCommitted, hc]

/-- C8: discardChange clears the change child exactly when that child
is not committed, and raises NotDiscarded exactly when the child is
committed (the error models the exception with the node unmodified);
with no child it does nothing and does not raise. -/
theorem c8_discardChange_characterization :
    ∀ (c : Bool) (p : Option CommitChain) (child : CommitChain),
      (CommitChain.discardChange (.mk c p (some child)) = .ok (.mk c p none) ↔
        child.isCommitted = false) ∧
      (CommitChain.discardChange (.mk c p (some child)) = .error .notDiscarded ↔
        child.isCommitted = true) ∧
      CommitChain.discardChange (.mk c p none) = .ok (.mk c p none) := by
  intro c p child
  cases hc : child.isCommitted <;>
    simp [CommitChain.discardChange, hc]

/-- A drain run executes exactly the queued tasks, in FIFO order, and
leaves the pool with an empty work list and everything else as it was. -/
theorem drain_spec {α : Type} :
    ∀ p : Pool α, Pool.drain p = (p.work, { p with work := [] }) := by
  have aux : ∀ (l : List α) (p : Pool α), p.work = l →
      Pool.drain p = (l, { p with work := [] }) := by
    intro l
    induction l with
    | nil =>
      intro p hw
      rw [Pool.drain]
      split
      · cases p
        simp_all
      · simp_all
    | cons t ts ih =>
      intro p hw
      rw [Pool.drain]
      split
      · simp_all
      · rename_i t' ts' hw'
        rw [hw] at hw'
        cases hw'
        rw [ih { p with work := ts } rfl]
  exact fun p => aux p.work p rfl

/-- C4 counterexample: request shutdown on a pool, then enqueue; the
work list grows, so the task was accepted.  The claim says no new task
is accepted by enqueue after shutdown; ThreadPool::enqueue checks no
shutdown flag at all. -/
theorem c4_counterexample :
    (Pool.enqueue (Pool.shutdownPool ({} : Pool Unit)) ()).work ≠
      (Pool.shutdownPool ({} : Pool Unit)).work := by
  decide

/-- C4 amended: after shutdown is requested, enqueue still accepts any
task (the code never consults the shutdown flag on that path); every
task in the queue at shutdown time is run, in FIFO order, before the
workers exit, after which the queue is empty, every worker has exited,
and join completes moving the pool to Shutdown; a second shutdown has
no further effect. -/
theorem c4_shutdown_protocol {α : Type} (p : Pool α) :
    (∀ t, (Pool.enqueue p t).work = p.work ++ [t]) ∧
    Pool.shutdownPool (Pool.shutdownPool p) = Pool.shutdownPool p ∧
    (Pool.shutdownSequence p).1 = p.work ∧
    (Pool.shutdownSequence p).2.work = [] ∧
    (∀ w ∈ (Pool.shutdownSequence p).2.threads,
      w.exited = true ∧ w.state = TState.Shutdown) ∧
    (Pool.shutdownSequence p).2.state = TState.Shutdown := by
  refine ⟨fun t => rfl, ?_, ?_, ?_, ?_, ?_⟩
  · simp only [Pool.shutdownPool, List.map_map]
    rfl
  · simp [Pool.shutdownSequence, Pool.workerExitPhase, drain_spec,
      Pool.joinPool, Pool.shutdownPool]
  · simp [Pool.shutdownSequence, Pool.workerExitPhase, drain_spec,
      Pool.joinPool, Pool.shutdownPool]
  · intro w hw
    simp [Pool.shutdownSequence, Pool.workerExitPhase, drain_spec,
      Pool.joinPool, Pool.shutdownPool] at hw
    obtain ⟨w', -, rfl⟩ := hw
    exact ⟨rfl, rfl⟩
  · simp [Pool.shutdownSequence, Pool.workerExitPhase, drain_spec,
      Pool.joinPool, Pool.shutdownPool]

/-- C4 amended, witness: the protocol applied to a concrete pool with
one worker and the queue holding tasks 1 and 2. -/
theorem c4_shutdown_protocol_witness :
    (Pool.shutdownSequence poolEx).1 = [1, 2] ∧
    (Pool.enqueue poolEx 7).work = [1, 2, 7] ∧
    ({ shutdownFlag := true, state := TState.Shutdown, exited := true } : Worker).exited
      = true := by
  have h := c4_shutdown_protocol poolEx
  refine ⟨h.2.2.1, (h.1 7).trans rfl, ?_⟩
  have hmem : ({ shutdownFlag := true, state := TState.Shutdown, exited := true } : Worker)
      ∈ (Pool.shutdownSequence poolEx).2.threads := by
    simp [Pool.shutdownSequence, Pool.workerExitPhase, drain_spec,
      Pool.joinPool, Pool.shutdownPool, poolEx]
  exact (h.2.2.2.2.1 _ hmem).1

/-- An identifier with no row in the node table looks up to the empty
kind string (PqNodeFactory::getNodeType leaves its result empty when
the query returns no row). -/
theorem getNodeTypeOf_absent (db : Db) (i : Uuid)
    (habs : ∀ row ∈ db.nodeRows, row.1 ≠ i) :
    db.getNodeTypeOf i = "" := by
  unfold Db.getNodeTypeOf
  have haux : ∀ (rows : List (Uuid × String)) (acc : String),
      (∀ row ∈ rows, row.1 ≠ i) →
      rows.foldl (fun acc row => if row.1 = i then row.2 else acc) acc = acc := by
    intro rows
    induction rows with
    | nil => intro acc _; rfl
    | cons row rows ih =>
      intro acc h
      have hr : row.1 ≠ i := h row (List.mem_cons_self row rows)
      simp only [List.foldl_cons, if_neg hr]
      exact ih acc (fun x hx => h x (List.mem_cons_of_mem row hx))
  exact haux db.nodeRows "" habs

/-- C5 counterexample: the POST /graph/:id handler deserializes the
body with no try block, so on a body that fails to deserialize it
propagates the cereal error and produces no response at all — in
particular no 400 Bad Request; and GET /graph/:id on an identifier
absent from the store never answers — the handler blocks forever on
the factory done signal — instead of sending the claimed 404. -/
theorem c5_counterexample :
    GraphServer.postRoute (α := Unit)
        (.error (.deserialization "malformed body")) =
      .error (.deserialization "malformed body") ∧
    GraphServer.graphRoute ({} : Db) "u1" = .blocked ∧
    RouteOutcome.blocked ≠
      .response { code := 404, body := "ID not found" } := by
  refine ⟨rfl, by decide, by decide⟩

/-- C5 amended: GET /graph/:id answers 400 on an empty identifier; on
an identifier with no node row it never answers at all — the handler
blocks forever waiting for the factory done signal, which is never
emitted because no loader worker is spawned for a null root — and its
404 branch is unreachable on every input; POST /graph/:id answers 200
OK when the body deserializes, and on a failing body it does not answer
400 but lets the deserialization error escape. -/
theorem c5_routes {α : Type} (db : Db) (idParam : String)
    (e : CerealError) (a : α) :
    (idParam = "" →
      GraphServer.graphRoute db idParam =
        .response { code := 400, body := "Empty/No ID specified" }) ∧
    (idParam ≠ "" → (∀ row ∈ db.nodeRows, row.1 ≠ idParam) →
      GraphServer.graphRoute db idParam = .blocked) ∧
    GraphServer.graphRoute db idParam ≠
      .response { code := 404, body := "ID not found" } ∧
    (GraphServer.postRoute (.error e) =
      (.error e : Except CerealError (HttpResponse × α))) ∧
    GraphServer.postRoute (.ok a) = .ok ({ code := 200, body := "OK" }, a) := by
  refine ⟨?_, ?_, ?_, rfl, rfl⟩
  · intro h
    simp [GraphServer.graphRoute, h]
  · intro h habs
    have hk := getNodeTypeOf_absent db idParam habs
    simp [GraphServer.graphRoute, GraphServer.graphAwait, startLoading, h, hk]
  · by_cases h : idParam = ""
    · simp [GraphServer.graphRoute, h]
    · cases hs : startLoading db idParam with
      | none => simp [GraphServer.graphRoute, GraphServer.graphAwait, h, hs]
      | some root =>
        simp [GraphServer.graphRoute, GraphServer.graphAwait, h, hs]

/-- C5 amended, witness: the routes applied at concrete inputs: an
empty identifier answers 400 and an absent identifier never answers. -/
theorem c5_routes_witness :
    GraphServer.graphRoute ({} : Db) "" =
      .response { code := 400, body := "Empty/No ID specified" } ∧
    GraphServer.graphRoute ({} : Db) "u1" = .blocked := by
  have h := c5_routes (α := Unit) ({} : Db) "" (.deserialization "x") ()
  have h2 := c5_routes (α := Unit) ({} : Db) "u1" (.deserialization "x") ()
  exact ⟨h.1 rfl, h2.2.1 (by decide) (by simp [Db])⟩

/-- The allocator walk over a name list: a listed name allocates that
kind, an unlisted one falls through to a plain Node; either way the
UUID is set (setUuid also sets changed) and the result exists. -/
theorem allocator_getNode_spec (l : List String) (nodeType : String) (uuid : Uuid) :
    NodeAllocator.getNode l nodeType uuid =
      { kind := if nodeType ∈ l then nodeType else "Node",
        id := uuid, changed := true, initted := false } := by
  induction l with
  | nil => simp [NodeAllocator.getNode]
  | cons k rest ih =>
    by_cases h : nodeType = k
    · subst h
      simp [NodeAllocator.getNode]
    · simp [NodeAllocator.getNode, h, ih, List.mem_cons]

/-- C9: for an identifier whose node row exists (its stored kind name
is some nonempty string, and every kind name the save path stores is
nonempty by payload_getNodeType_ne_empty), startLoading never hands
back null: it allocates the registered kind when the name is known and
a neutral plain Node otherwise, always with the requested identifier
set and the initted flag forced to true. -/
theorem c9_startLoading_never_null (db : Db) (uuid : Uuid) (k : String)
    (hrow : db.getNodeTypeOf uuid = k) (hne : k ≠ "") :
    startLoading db uuid =
      some { kind := if k ∈ allocatorKinds then k else "Node",
             id := uuid, changed := true, initted := true } := by
  simp only [startLoading, NodeAllocator.get, hrow, allocator_getNode_spec]
  simp [hne]

/-- C9 witness: a stored kind name matching no registered kind yields a
plain initted Node with the requested identifier, and a registered name
yields that kind. -/
theorem c9_startLoading_never_null_witness :
    startLoading { nodeRows := [("u1", "Wombat")] } "u1" =
      some { kind := "Node", id := "u1", changed := true, initted := true } ∧
    startLoading { nodeRows := [("u2", "Requirement")] } "u2" =
      some { kind := "Requirement", id := "u2", changed := true, initted := true } := by
  constructor
  · rw [c9_startLoading_never_null { nodeRows := [("u1", "Wombat")] } "u1" "Wombat"
      rfl (by decide), if_neg (by decide)]
  · rw [c9_startLoading_never_null { nodeRows := [("u2", "Requirement")] } "u2"
      "Requirement" rfl (by decide), if_pos (by decide)]

/-- The containment loop of addToUpDown dereferences toAdd inside the
loop body, so a null toAdd faults exactly when the list is nonempty. -/
theorem containsRef_none (l : List (Option Uuid)) (hne : l ≠ []) :
    containsRef l none = .error .nullDeref := by
  cases l with
  | nil => cases hne rfl
  | cons e rest => cases e <;> rfl

/-- Over a list without nulls the containment loop of addToUpDown
cannot fault. -/
theorem containsRef_some (l : List (Option Uuid)) (a : Uuid)
    (hl : (none : Option Uuid) ∉ l) :
    ∃ b, containsRef l (some a) = .ok b := by
  induction l with
  | nil => exact ⟨false, rfl⟩
  | cons e rest ih =>
    have he : e ≠ none := fun h => hl (h ▸ List.mem_cons_self e rest)
    obtain ⟨ea, rfl⟩ := Option.ne_none_iff_exists'.mp he
    obtain ⟨b, hb⟩ := ih (fun h => hl (List.mem_cons_of_mem _ h))
    refine ⟨b || (ea == a), ?_⟩
    simp only [containsRef, derefId, hb]
    rfl

/-- Appending a non-null reference through addToUpDown cannot fault and
keeps the list free of nulls. -/
theorem addToUpDown_some (l : List (Option Uuid)) (a : Uuid)
    (hl : (none : Option Uuid) ∉ l) :
    ∃ l', addToUpDown l (some a) = .ok l' ∧ (none : Option Uuid) ∉ l' := by
  obtain ⟨b, hb⟩ := containsRef_some l a hl
  cases b with
  | true => exact ⟨l, by simp only [addToUpDown, hb]; rfl, hl⟩
  | false =>
    refine ⟨l ++ [some a], by simp only [addToUpDown, hb]; rfl, ?_⟩
    simp [List.mem_append, hl]

/-- Resolution of an association naming an identifier with no node row
(and not already loaded) leaves a null reference. -/
theorem resolveNeighbor_none (db : Db) (already : List Uuid) (a : Uuid)
    (h1 : a ∉ already) (h2 : db.getNodeTypeOf a = "") :
    resolveNeighbor db already a = none := by
  simp [resolveNeighbor, startLoading, h1, h2]

/-- Resolution of an association whose identifier has a node row with a
nonempty kind always produces the (non-null) neighbor identifier. -/
theorem resolveNeighbor_some (db : Db) (already : List Uuid) (a : Uuid)
    (h2 : db.getNodeTypeOf a ≠ "") :
    resolveNeighbor db already a = some a := by
  by_cases h1 : a ∈ already
  · simp [resolveNeighbor, h1]
  · have hsl : startLoading db a =
        some { kind := if db.getNodeTypeOf a ∈ allocatorKinds
                 then db.getNodeTypeOf a else "Node",
               id := a, changed := true, initted := true } := by
      simp only [startLoading, NodeAllocator.get, allocator_getNode_spec]
      simp [h2]
    simp [resolveNeighbor, h1, hsl]

/-- The whole association loop succeeds and wires no null when every
named neighbor has a node row with a nonempty kind. -/
theorem processRows_total (db : Db) (already : List Uuid) :
    ∀ (rows : List AssocRow) (node : LoadingNode),
      (∀ r ∈ rows, db.getNodeTypeOf r.association ≠ "") →
      (none : Option Uuid) ∉ node.up → (none : Option Uuid) ∉ node.down →
      ∃ node', processRows db already node rows = .ok node' ∧
        (none : Option Uuid) ∉ node'.up ∧ (none : Option Uuid) ∉ node'.down := by
  intro rows
  induction rows with
  | nil =>
    intro node _ hu hd
    exact ⟨node, rfl, hu, hd⟩
  | cons r rest ih =>
    intro node hall hu hd
    have hr : db.getNodeTypeOf r.association ≠ "" :=
      hall r (List.mem_cons_self r rest)
    have hrest : ∀ x ∈ rest, db.getNodeTypeOf x.association ≠ "" :=
      fun x hx => hall x (List.mem_cons_of_mem r hx)
    by_cases hdir : r.direction = "up"
    · obtain ⟨l', hl', hl'none⟩ := addToUpDown_some node.up r.association hu
      have hstep : processRow db already node r = .ok { node with up := l' } := by
        simp only [processRow, resolveNeighbor_some db already r.association hr,
          hdir, if_pos, hl']
        rfl
      obtain ⟨node', hn', hu', hd'⟩ := ih { node with up := l' } hrest hl'none hd
      refine ⟨node', ?_, hu', hd'⟩
      simp only [processRows, List.foldlM_cons, hstep]
      exact hn'
    · obtain ⟨l', hl', hl'none⟩ := addToUpDown_some node.down r.association hd
      have hstep : processRow db already node r = .ok { node with down := l' } := by
        simp only [processRow, hdir, if_neg,
          resolveNeighbor_some db already r.association hr, hl']
        rfl
      obtain ⟨node', hn', hu', hd'⟩ := ih { node with down := l' } hrest hu hl'none
      refine ⟨node', ?_, hu', hd'⟩
      simp only [processRows, List.foldlM_cons, hstep]
      exact hn'

/-- C10: during edge resolution, an association row naming a neighbor
with no node row resolves to a null reference; the loop then hands that
null to addToUpDown, which appends it when the target list is empty and
dereferences it (the modelled fault) when the list is nonempty; and
when every neighbor named in the rows has a node row, resolution always
produces the non-null neighbor itself, so no fault and no null entry
can arise. -/
theorem c10_null_neighbor_wiring (db : Db) (already : List Uuid)
    (node : LoadingNode) (row : AssocRow) (rows : List AssocRow) :
    (row.association ∉ already →
      db.getNodeTypeOf row.association = "" →
      resolveNeighbor db already row.association = none) ∧
    (row.association ∉ already →
      db.getNodeTypeOf row.association = "" →
      row.direction = "up" → node.up = [] →
      processRow db already node row = .ok { node with up := [none] }) ∧
    (row.association ∉ already →
      db.getNodeTypeOf row.association = "" →
      row.direction = "up" → node.up ≠ [] →
      processRow db already node row = .error .nullDeref) ∧
    (db.getNodeTypeOf row.association ≠ "" →
      resolveNeighbor db already row.association = some row.association) ∧
    ((∀ r ∈ rows, db.getNodeTypeOf r.association ≠ "") →
      (none : Option Uuid) ∉ node.up → (none : Option Uuid) ∉ node.down →
      ∃ node', processRows db already node rows = .ok node' ∧
        (none : Option Uuid) ∉ node'.up ∧ (none : Option Uuid) ∉ node'.down) := by
  refine ⟨resolveNeighbor_none db already row.association, ?_, ?_,
    resolveNeighbor_some db already row.association,
    processRows_total db already rows node⟩
  · intro h1 h2 hdir hup
    simp only [processRow, resolveNeighbor_none db already row.association h1 h2,
      hdir, if_pos, hup, addToUpDown, containsRef]
    rfl
  · intro h1 h2 hdir hup
    simp only [processRow, resolveNeighbor_none db already row.association h1 h2,
      hdir, if_pos, addToUpDown, containsRef_none node.up hup]
    rfl

/-- C10 witness: on an empty store a neighbor resolves to null and is
appended to an empty up list; with an occupied up list the same row
faults; and with the neighbor row present nothing null appears. -/
theorem c10_null_neighbor_wiring_witness :
    processRow ({} : Db) [] { id := "a" } ⟨"a", "z", "up"⟩ =
      .ok { id := "a", up := [none] } ∧
    processRow ({} : Db) [] { id := "a", up := [some "q"] } ⟨"a", "z", "up"⟩ =
      .error .nullDeref ∧
    ∃ node', processRows { nodeRows := [("z", "Text")] } []
        ({ id := "a" } : LoadingNode) [⟨"a", "z", "up"⟩] = .ok node' ∧
      (none : Option Uuid) ∉ node'.up ∧ (none : Option Uuid) ∉ node'.down := by
  have h1 := c10_null_neighbor_wiring ({} : Db) [] { id := "a" } ⟨"a", "z", "up"⟩ []
  have h2 := c10_null_neighbor_wiring ({} : Db) []
    { id := "a", up := [some "q"] } ⟨"a", "z", "up"⟩ []
  have h3 := c10_null_neighbor_wiring { nodeRows := [("z", "Text")] } []
    ({ id := "a" } : LoadingNode) ⟨"a", "z", "up"⟩ [⟨"a", "z", "up"⟩]
  refine ⟨h1.2.1 (List.not_mem_nil _) rfl rfl rfl,
    h2.2.2.1 (List.not_mem_nil _) rfl rfl (by decide), ?_⟩
  exact h3.2.2.2.2 (by decide) (List.not_mem_nil _) (List.not_mem_nil _)

/-- saveSpecificData never touches node_associations. -/
theorem saveSpecificData_assocRows (db : Db) (i : Uuid) (p : Payload) :
    (saveSpecificData db i p).assocRows = db.assocRows := by
  unfold saveSpecificData
  by_cases h1 : p.getNodeType ∈ specificSaveableKinds
  · by_cases h2 : db.nodeInTable p.getNodeType i
    · simp [h1, h2]
    · simp [h1, h2]
  · simp [h1]

/-- C2: after dbSaveNode persists a node — insert path or update path —
the rows of node_associations whose id column is the node identifier
are exactly one up row per up entry followed by one down row per down
entry.  On the update path this holds because all rows with that id are
deleted first; on the insert path it needs the store not to hold orphan
association rows for an id absent from the node table, which the system
never produces. -/
theorem c2_dbSaveNode_edges_exact (db : Db) (i : Uuid) (n : NodeData)
    (h : db.nodeInDb i = true ∨ db.assocRowsFor i = []) :
    Db.assocRowsFor (dbSaveNode i n db) i =
      n.up.map (fun u => AssocRow.mk i u "up") ++
        n.down.map (fun d => AssocRow.mk i d "down") := by
  have hup : (n.up.map (fun u => AssocRow.mk i u "up")).filter
      (fun r => decide (r.rowId = i)) = n.up.map (fun u => AssocRow.mk i u "up") := by
    apply List.filter_eq_self.mpr
    intro a ha
    obtain ⟨u, -, rfl⟩ := List.mem_map.mp ha
    simp
  have hdown : (n.down.map (fun d => AssocRow.mk i d "down")).filter
      (fun r => decide (r.rowId = i)) = n.down.map (fun d => AssocRow.mk i d "down") := by
    apply List.filter_eq_self.mpr
    intro a ha
    obtain ⟨u, -, rfl⟩ := List.mem_map.mp ha
    simp
  by_cases hin : db.nodeInDb i
  · have hclear : (clearNodeDBAssociations db i).assocRows.filter
        (fun r => decide (r.rowId = i)) = [] := by
      simp only [clearNodeDBAssociations, List.filter_filter]
      apply List.filter_eq_nil_iff.mpr
      intro a _
      simp
    unfold dbSaveNode Db.assocRowsFor
    rw [saveSpecificData_assocRows]
    simp only [hin, if_pos, List.filter_append, hclear, hup, hdown,
      List.nil_append]
  · have hright : db.assocRows.filter (fun r => decide (r.rowId = i)) = [] := by
      cases h with
      | inl hl => exact absurd hl hin
      | inr hr => exact hr
    unfold dbSaveNode Db.assocRowsFor
    rw [saveSpecificData_assocRows]
    simp only [hin, if_false, Bool.false_eq_true, List.filter_append, hup, hdown]
    rw [hright]
    rfl

/-- C2 witness: saving a node with two up links and one down link into
an empty store (the insert path) leaves exactly its three edge rows. -/
theorem c2_dbSaveNode_edges_exact_witness :
    Db.assocRowsFor
        (dbSaveNode "n" { up := ["a", "b"], down := ["c"], payload := .node } {}) "n" =
      [⟨"n", "a", "up"⟩, ⟨"n", "b", "up"⟩, ⟨"n", "c", "down"⟩] := by
  rw [c2_dbSaveNode_edges_exact {} "n"
    { up := ["a", "b"], down := ["c"], payload := .node } (Or.inr rfl)]
  rfl

/-- saveSpecificData never touches the node table. -/
theorem saveSpecificData_nodeRows (db : Db) (i : Uuid) (p : Payload) :
    (saveSpecificData db i p).nodeRows = db.nodeRows := by
  unfold saveSpecificData
  by_cases h1 : p.getNodeType ∈ specificSaveableKinds
  · by_cases h2 : db.nodeInTable p.getNodeType i
    · simp [h1, h2]
    · simp [h1, h2]
  · simp [h1]

/-- Filtering after a map that fixes every element the filter keeps and
preserves the filter status of the rest is the same as filtering the
original list. -/
theorem filter_map_invariant {α : Type} (f : α → α) (p : α → Bool)
    (h1 : ∀ a, p (f a) = p a) (h2 : ∀ a, p a = true → f a = a) :
    ∀ l : List α, (l.map f).filter p = l.filter p := by
  intro l
  induction l with
  | nil => rfl
  | cons a l ih =>
    rw [List.map_cons, List.filter_cons, List.filter_cons, h1 a]
    cases hp : p a with
    | false => exact ih
    | true => rw [h2 a hp, ih]

/-- An in-place update of the kind-specific rows of one identifier
leaves the rows of every other identifier untouched. -/
theorem specific_update_other (l : List SpecificRow) (kind : String)
    (i x : Uuid) (p : Payload) (hxi : x ≠ i) :
    (l.map (fun r =>
        if r.kind == kind && r.rowId == i then { r with data := p } else r)).filter
      (fun r => decide (r.rowId = x)) =
      l.filter (fun r => decide (r.rowId = x)) := by
  apply filter_map_invariant
  · intro a
    by_cases hb : (a.kind == kind && a.rowId == i) = true <;> simp [hb]
  · intro a ha
    have hax : a.rowId = x := by simpa using ha
    have hb : (a.kind == kind && a.rowId == i) = false := by
      have : ¬(a.rowId = i) := fun hc => hxi ((hax.symm.trans hc))
      simp [this]
    simp [hb]

/-- dbSaveNode writes rows only for its own node: the node row, the
association rows and the kind-specific rows of any other identifier are
untouched. -/
theorem dbSaveNode_other_id (i x : Uuid) (hxi : x ≠ i) (n : NodeData) (db : Db) :
    Db.assocRowsFor (dbSaveNode i n db) x = db.assocRowsFor x ∧
    Db.nodeRowsFor (dbSaveNode i n db) x = db.nodeRowsFor x ∧
    Db.specificRowsFor (dbSaveNode i n db) x = db.specificRowsFor x := by
  have hix : ¬(i = x) := fun hc => hxi hc.symm
  have hupnil : (n.up.map (fun u => AssocRow.mk i u "up")).filter
      (fun r => decide (r.rowId = x)) = [] := by
    apply List.filter_eq_nil_iff.mpr
    intro a ha
    obtain ⟨u, -, rfl⟩ := List.mem_map.mp ha
    simpa using hix
  have hdownnil : (n.down.map (fun d => AssocRow.mk i d "down")).filter
      (fun r => decide (r.rowId = x)) = [] := by
    apply List.filter_eq_nil_iff.mpr
    intro a ha
    obtain ⟨u, -, rfl⟩ := List.mem_map.mp ha
    simpa using hix
  have hclear : ∀ l : List AssocRow,
      (l.filter (fun r => decide (¬(r.rowId = i)))).filter
        (fun r => decide (r.rowId = x)) =
      l.filter (fun r => decide (r.rowId = x)) := by
    intro l
    rw [List.filter_filter]
    apply List.filter_congr
    intro a _
    by_cases hax : a.rowId = x
    · simp [hax, hxi]
    · simp [hax]
  refine ⟨?_, ?_, ?_⟩
  · unfold dbSaveNode Db.assocRowsFor
    rw [saveSpecificData_assocRows]
    by_cases hin : db.nodeInDb i
    · simp only [hin, if_pos, List.filter_append, hupnil, hdownnil,
        List.append_nil, clearNodeDBAssociations]
      exact hclear db.assocRows
    · simp only [hin, if_false, Bool.false_eq_true, List.filter_append,
        hupnil, hdownnil, List.append_nil]
  · unfold dbSaveNode Db.nodeRowsFor
    rw [saveSpecificData_nodeRows]
    by_cases hin : db.nodeInDb i
    · simp only [hin, if_pos, clearNodeDBAssociations]
    · simp only [hin, if_false, Bool.false_eq_true, List.filter_append]
      have hone : ([(i, n.payload.getNodeType)].filter
          (fun r => decide (r.1 = x))) = [] := by
        simpa using hix
      rw [hone, List.append_nil]
  · have hssd : ∀ d : Db, Db.specificRowsFor (saveSpecificData d i n.payload) x =
        Db.specificRowsFor d x := by
      intro d
      unfold saveSpecificData Db.specificRowsFor
      by_cases h1 : n.payload.getNodeType ∈ specificSaveableKinds
      · by_cases h2 : d.nodeInTable n.payload.getNodeType i
        · simp only [h1, if_pos, h2]
          exact specific_update_other _ _ _ _ _ hxi
        · simp only [h1, if_pos, h2, Bool.false_eq_true, if_false,
            List.filter_append]
          have hone : ([(⟨n.payload.getNodeType, i, n.payload⟩ : SpecificRow)].filter
              (fun r => decide (r.rowId = x))) = [] := by
            simpa using hix
          rw [hone, List.append_nil]
      · simp only [h1, if_false]
    unfold dbSaveNode
    rw [hssd]
    unfold Db.specificRowsFor
    by_cases hin : db.nodeInDb i <;> simp [hin, clearNodeDBAssociations]

/-- Replacing the arena record of one identifier leaves every other
lookup unchanged. -/
theorem setNode_other (g : Graph) (i x : Uuid) (hxi : x ≠ i) (m : NodeData) :
    Graph.getNode (Graph.setNode g i m) x = g.getNode x := by
  unfold Graph.setNode Graph.getNode
  induction g with
  | nil => rfl
  | cons p g ih =>
    obtain ⟨k, v⟩ := p
    rw [List.map_cons]
    by_cases hk : k = i
    · have hxk : (x == k) = false := by simp [hk, hxi]
      rw [if_pos (by simp [hk])]
      rw [List.lookup_cons, List.lookup_cons]
      simp only [hxk]
      exact ih
    · rw [if_neg (by simp [hk])]
      rw [List.lookup_cons, List.lookup_cons]
      cases hxk : (x == k) with
      | true => rfl
      | false => exact ih

/-- One SaveNodesNode::run leaves an unchanged node (one whose changed
flag is false) completely alone: its arena record and its node,
association and kind-specific rows all stay as they were. -/
theorem run_preserves_unchanged (g : Graph) (fuel : Nat) (i x : Uuid)
    (sonly : Bool) (db : Db) (n : NodeData)
    (hx : g.getNode x = some n) (hch : n.changed = false) :
    (SaveNodesNode.run g fuel i sonly db).1.getNode x = some n ∧
    Db.assocRowsFor (SaveNodesNode.run g fuel i sonly db).2.1 x =
      db.assocRowsFor x ∧
    Db.nodeRowsFor (SaveNodesNode.run g fuel i sonly db).2.1 x =
      db.nodeRowsFor x ∧
    Db.specificRowsFor (SaveNodesNode.run g fuel i sonly db).2.1 x =
      db.specificRowsFor x := by
  unfold SaveNodesNode.run
  cases hg : g.getNode i with
  | none => exact ⟨hx, rfl, rfl, rfl⟩
  | some m =>
    dsimp only
    by_cases hm : m.changed = true
    · have hxi : x ≠ i := by
        intro hc
        rw [hc, hg] at hx
        cases hx
        rw [hm] at hch
        cases hch
      have hset := setNode_other g i x hxi { m with changed := false }
      have hdb := dbSaveNode_other_id i x hxi { m with changed := false } db
      rw [hm]
      cases sonly <;> exact ⟨hset.trans hx, hdb.1, hdb.2.1, hdb.2.2⟩
    · have hm' : m.changed = false := by simpa using hm
      rw [hm']
      cases sonly <;> exact ⟨hx, rfl, rfl, rfl⟩

/-- C1 amended: a node whose changed flag is false is not persisted at
all by the save pipeline — its kind-specific row, its node row and its
edge rows in node_associations are all left exactly as they were (in
particular the edges are not rewritten), and its in-memory record is
untouched.  Edge rows are rewritten only for nodes whose changed flag
was true. -/
theorem c1_unchanged_node_untouched (g : Graph) (fuel : Nat) (root x : Uuid)
    (db : Db) (n : NodeData)
    (hx : g.getNode x = some n) (hch : n.changed = false) :
    (saveClosure g fuel root db).1.getNode x = some n ∧
    Db.assocRowsFor (saveClosure g fuel root db).2 x = db.assocRowsFor x ∧
    Db.nodeRowsFor (saveClosure g fuel root db).2 x = db.nodeRowsFor x ∧
    Db.specificRowsFor (saveClosure g fuel root db).2 x = db.specificRowsFor x := by
  unfold saveClosure
  have hroot := run_preserves_unchanged g fuel root x false db n hx hch
  have hstep : ∀ (acc : Graph × Db) (i : Uuid),
      (acc.1.getNode x = some n ∧
        Db.assocRowsFor acc.2 x = db.assocRowsFor x ∧
        Db.nodeRowsFor acc.2 x = db.nodeRowsFor x ∧
        Db.specificRowsFor acc.2 x = db.specificRowsFor x) →
      ((runSaverTask acc i).1.getNode x = some n ∧
        Db.assocRowsFor (runSaverTask acc i).2 x = db.assocRowsFor x ∧
        Db.nodeRowsFor (runSaverTask acc i).2 x = db.nodeRowsFor x ∧
        Db.specificRowsFor (runSaverTask acc i).2 x = db.specificRowsFor x) := by
    intro acc i hacc
    have h := run_preserves_unchanged acc.1 0 i x true acc.2 n hacc.1 hch
    exact ⟨h.1, h.2.1.trans hacc.2.1, h.2.2.1.trans hacc.2.2.1,
      h.2.2.2.trans hacc.2.2.2⟩
  exact foldl_preserve hstep _ _ ⟨hroot.1, hroot.2.1, hroot.2.2.1, hroot.2.2.2⟩

/-- C1 amended, witness: in c1Graph the unchanged node X keeps an empty
store footprint across the whole save, and its record is intact. -/
theorem c1_unchanged_node_untouched_witness :
    (saveClosure c1Graph 5 "R" {}).1.getNode "X" = some c1NodeX ∧
    Db.assocRowsFor (saveClosure c1Graph 5 "R" {}).2 "X" =
      Db.assocRowsFor {} "X" := by
  have h := c1_unchanged_node_untouched c1Graph 5 "R" "X" {} c1NodeX rfl rfl
  exact ⟨h.1, h.2.1⟩

/-- C1 counterexample: in c1Graph the save traversal visits X (it
enters the _alreadySaved map during the traversal the run performs),
X has an up link to R in memory, yet after the whole save the store
holds no association row for X at all — the claimed edge rewrite for a
visited unchanged node does not happen. -/
theorem c1_counterexample :
    Db.assocRowsFor (saveClosure c1Graph 5 "R" {}).2 "X" = [] ∧
    c1Graph.getNode "X" = some c1NodeX ∧
    c1NodeX.up = ["R"] ∧
    (SaveNodesNode.traverse
        (Graph.setNode c1Graph "R"
          { up := [], down := ["X"], changed := false, payload := .node })
        5 "X" { alreadySaved := ["R"], enqueued := [] }).alreadySaved
      = ["R", "X"] := by
  refine ⟨?_, rfl, rfl, ?_⟩ <;> decide

/-- The round trip image of a payload keeps its commitable overlay. -/
theorem roundPayload_commitData (p : Payload) :
    (roundPayload p).commitData = p.commitData := by
  cases p <;> rfl

/-- The round trip image of a payload keeps its extra references (the
commitable change references and the addressLines reference). -/
theorem roundPayload_extraRefs (p : Payload) :
    (roundPayload p).extraRefs = p.extraRefs := by
  cases p <;> rfl

/-- The round trip image of a node reaches exactly the references the
original node reaches. -/
theorem allRefs_roundNode (nd : NodeData) :
    NodeData.allRefs (roundNode nd) = nd.allRefs := by
  unfold NodeData.allRefs roundNode
  rw [roundPayload_extraRefs]

/-- Running the load member of a kind on exactly what its save member
wrote gives the round trip payload: the identity for every kind except
Product (whose load reads no scalar fields) and Todo (whose save omits
dateCompleted). -/
theorem loadPayload_saveFields (p : Payload) :
    loadPayload p.getNodeType p.commitData p.saveFields =
      some (roundPayload p) := by
  cases p <;> rfl

/-- Ingesting an archived node record reproduces the round trip image
of the node. -/
theorem loadEntry_saveEntry (i : Uuid) (nd : NodeData) :
    loadEntry (saveEntry i nd) = some (roundNode nd) := by
  unfold loadEntry saveEntry
  simp only [loadPayload_saveFields, Option.map_some']
  rfl

/-- The already-visited list only grows during the archive walk. -/
theorem archiveOrder_subset (g : Graph) :
    ∀ (fuel : Nat) (v w : List Uuid), v ⊆ archiveOrder g fuel v w := by
  intro fuel
  induction fuel with
  | zero => intro v w; exact List.Subset.refl v
  | succ fuel ih =>
    intro v w
    cases w with
    | nil => exact List.Subset.refl v
    | cons i rest =>
      by_cases hi : i ∈ v
      · simp only [archiveOrder, hi, if_pos]
        exact ih v rest
      · cases hgi : g.getNode i with
        | none =>
          simp only [archiveOrder, hi, if_false, hgi]
          exact (List.subset_append_left v [i]).trans (ih (v ++ [i]) rest)
        | some nd =>
          simp only [archiveOrder, hi, if_false, hgi]
          exact (List.subset_append_left v [i]).trans
            (ih (v ++ [i]) (nd.allRefs ++ rest))

/-- The archive walk never visits an identifier twice. -/
theorem archiveOrder_nodup (g : Graph) :
    ∀ (fuel : Nat) (v w : List Uuid), v.Nodup →
      (archiveOrder g fuel v w).Nodup := by
  intro fuel
  induction fuel with
  | zero => intro v w hv; exact hv
  | succ fuel ih =>
    intro v w hv
    cases w with
    | nil => exact hv
    | cons i rest =>
      by_cases hi : i ∈ v
      · simp only [archiveOrder, hi, if_pos]
        exact ih v rest hv
      · have hvi : (v ++ [i]).Nodup := by
          simp [List.nodup_append, hv, hi]
        cases hgi : g.getNode i with
        | none =>
          simp only [archiveOrder, hi, if_false, hgi]
          exact ih (v ++ [i]) rest hvi
        | some nd =>
          simp only [archiveOrder, hi, if_false, hgi]
          exact ih (v ++ [i]) (nd.allRefs ++ rest) hvi

/-- Two graphs that agree (up to the round trip image) on every
identifier the walk of the first visits produce identical walks: the
archive order depends only on the adjacency of visited nodes, which
roundNode preserves. -/
theorem archiveOrder_congr (g g' : Graph) :
    ∀ (fuel : Nat) (v w : List Uuid),
      (∀ i ∈ archiveOrder g fuel v w,
        Graph.getNode g' i = (g.getNode i).map roundNode) →
      archiveOrder g' fuel v w = archiveOrder g fuel v w := by
  intro fuel
  induction fuel with
  | zero => intro v w _; rfl
  | succ fuel ih =>
    intro v w h
    cases w with
    | nil => rfl
    | cons i rest =>
      by_cases hi : i ∈ v
      · have e1 : archiveOrder g (fuel + 1) v (i :: rest) =
            archiveOrder g fuel v rest := by
          simp only [archiveOrder, hi, if_pos]
        have e2 : archiveOrder g' (fuel + 1) v (i :: rest) =
            archiveOrder g' fuel v rest := by
          simp only [archiveOrder, hi, if_pos]
        rw [e1, e2]
        exact ih v rest (fun j hj => h j (by rw [e1]; exact hj))
      · cases hgi : g.getNode i with
        | none =>
          have e1 : archiveOrder g (fuel + 1) v (i :: rest) =
              archiveOrder g fuel (v ++ [i]) rest := by
            simp only [archiveOrder, hi, if_false, hgi]
          have hiv : i ∈ archiveOrder g (fuel + 1) v (i :: rest) := by
            rw [e1]
            exact archiveOrder_subset g fuel (v ++ [i]) rest (by simp)
          have hg'i : g'.getNode i = none := by
            have hh := h i hiv
            rw [hgi] at hh
            simpa using hh
          have e2 : archiveOrder g' (fuel + 1) v (i :: rest) =
              archiveOrder g' fuel (v ++ [i]) rest := by
            simp only [archiveOrder, hi, if_false, hg'i]
          rw [e1, e2]
          exact ih (v ++ [i]) rest (fun j hj => h j (by rw [e1]; exact hj))
        | some nd =>
          have e1 : archiveOrder g (fuel + 1) v (i :: rest) =
              archiveOrder g fuel (v ++ [i]) (nd.allRefs ++ rest) := by
            simp only [archiveOrder, hi, if_false, hgi]
          have hiv : i ∈ archiveOrder g (fuel + 1) v (i :: rest) := by
            rw [e1]
            exact archiveOrder_subset g fuel (v ++ [i]) _ (by simp)
          have hg'i : g'.getNode i = some (roundNode nd) := by
            have hh := h i hiv
            rw [hgi] at hh
            simpa using hh
          have e2 : archiveOrder g' (fuel + 1) v (i :: rest) =
              archiveOrder g' fuel (v ++ [i]) ((roundNode nd).allRefs ++ rest) := by
            simp only [archiveOrder, hi, if_false, hg'i]
          rw [e1, e2, allRefs_roundNode]
          exact ih (v ++ [i]) (nd.allRefs ++ rest)
            (fun j hj => h j (by rw [e1]; exact hj))

/-- Ingesting the archive of a list of identifiers succeeds and yields
the round trip image of each resolvable one. -/
theorem loadGraph_entries (g : Graph) :
    ∀ L : List Uuid,
      loadGraph (L.filterMap (fun i => (g.getNode i).map (saveEntry i))) =
        some (L.filterMap
          (fun i => (g.getNode i).map (fun nd => (i, roundNode nd)))) := by
  intro L
  induction L with
  | nil => rfl
  | cons i L ih =>
    cases hgi : g.getNode i with
    | none =>
      simp only [List.filterMap_cons, hgi, Option.map_none']
      exact ih
    | some nd =>
      simp only [List.filterMap_cons, hgi, Option.map_some']
      simp only [loadGraph, List.mapM_cons, loadEntry_saveEntry,
        Option.map_some'] at ih ⊢
      rw [ih]
      rfl

/-- Looking an identifier up in the round trip arena built from a list
of distinct identifiers. -/
theorem roundGraph_lookup (g : Graph) :
    ∀ (L : List Uuid), L.Nodup → ∀ i : Uuid,
      Graph.getNode (L.filterMap
          (fun j => (g.getNode j).map (fun nd => (j, roundNode nd)))) i =
        if i ∈ L then (g.getNode i).map roundNode else none := by
  intro L
  induction L with
  | nil =>
    intro _ i
    simp [Graph.getNode]
  | cons j L ih =>
    intro hnd i
    obtain ⟨hj, hndL⟩ := List.nodup_cons.mp hnd
    cases hgj : g.getNode j with
    | none =>
      simp only [List.filterMap_cons, hgj, Option.map_none']
      rw [ih hndL i]
      by_cases hij : i = j
      · subst hij
        simp [hj, hgj]
      · simp [hij]
    | some nd =>
      simp only [List.filterMap_cons, hgj, Option.map_some']
      unfold Graph.getNode
      rw [List.lookup_cons]
      by_cases hij : i = j
      · subst hij
        have hgj' : List.lookup i g = some nd := hgj
        simp [hgj']
      · have hbeq : (i == j) = false := by simp [hij]
        simp only [hbeq]
        have := ih hndL i
        unfold Graph.getNode at this
        rw [this]
        simp [hij]

/-- C3 amended: serialization produces an archive only when every node
reached by the walk is of a CEREAL_REGISTER_TYPE-registered kind;
reaching an unregistered kind (Todo, RecurringTodo, EmailAddress or
ServerLocatorNode) throws the unregistered-polymorphic-type error and
no round trip happens at all.  When the archive is produced, ingesting
it reproduces, for every archived identifier, a node with the same
identifier, the same up and down lists and the same commitable overlay
and extra references; the walk of the reconstructed graph visits
exactly the same identifiers (same reachable closure and adjacency);
and every scalar payload survives unchanged except that a Product
loses its title and description. -/
theorem c3_json_roundtrip (g : Graph) (fuel : Nat) (r : Uuid) :
    (archiveRegistered g fuel r = true →
      jsonRoundTrip g fuel r = .ok (some (roundGraph g fuel r))) ∧
    (archiveRegistered g fuel r = false →
      ∃ m, saveGraph g fuel r = .error (.unregisteredPolymorphicType m)) ∧
    (∀ p : Payload, Payload.cerealRegistered p = false ↔
      (p.getNodeType = "Todo" ∨ p.getNodeType = "RecurringTodo" ∨
       p.getNodeType = "EmailAddress" ∨ p.getNodeType = "ServerLocatorNode")) ∧
    (∀ i ∈ archiveOrder g fuel [] [r],
      Graph.getNode (roundGraph g fuel r) i = (g.getNode i).map roundNode) ∧
    archiveOrder (roundGraph g fuel r) fuel [] [r] =
      archiveOrder g fuel [] [r] ∧
    (∀ nd : NodeData, (roundNode nd).up = nd.up ∧ (roundNode nd).down = nd.down ∧
      (roundNode nd).payload.commitData = nd.payload.commitData ∧
      (roundNode nd).payload.extraRefs = nd.payload.extraRefs) ∧
    (∀ p : Payload,
      (∀ c t d, p ≠ .product c t d) →
      (∀ ds cr du cp dc sp, p ≠ .todo ds cr du cp dc sp) →
      roundPayload p = p) := by
  have hnodup := archiveOrder_nodup g fuel [] [r] List.nodup_nil
  have hlook : ∀ i ∈ archiveOrder g fuel [] [r],
      Graph.getNode (roundGraph g fuel r) i = (g.getNode i).map roundNode := by
    intro i hi
    unfold roundGraph
    rw [roundGraph_lookup g _ hnodup i, if_pos hi]
  refine ⟨?_, ?_, ?_, hlook, ?_, ?_, ?_⟩
  · intro hreg
    unfold archiveRegistered at hreg
    have hall := List.all_eq_true.mp hreg
    have hfind : (archiveOrder g fuel [] [r]).find? (fun i =>
        match g.getNode i with
        | some nd => ! nd.payload.cerealRegistered
        | none => false) = none := by
      apply List.find?_eq_none.mpr
      intro i hi
      have hpi := hall i hi
      cases hg : g.getNode i with
      | none => simp
      | some nd =>
        simp only [hg] at hpi
        simp [hpi]
    unfold jsonRoundTrip saveGraph
    rw [hfind]
    exact congrArg Except.ok (loadGraph_entries g _)
  · intro hreg
    unfold archiveRegistered at hreg
    obtain ⟨i, hi, hpi⟩ := List.all_eq_false.mp hreg
    have hfind : ((archiveOrder g fuel [] [r]).find? (fun i =>
        match g.getNode i with
        | some nd => ! nd.payload.cerealRegistered
        | none => false)).isSome = true := by
      apply List.find?_isSome.mpr
      refine ⟨i, hi, ?_⟩
      cases hg : g.getNode i with
      | none => simp [hg] at hpi
      | some nd =>
        simp only [hg] at hpi ⊢
        simp at hpi
        simp [hpi]
    obtain ⟨j, hj⟩ := Option.isSome_iff_exists.mp hfind
    refine ⟨((g.getNode j).map (fun nd => nd.payload.getNodeType)).getD "", ?_⟩
    unfold saveGraph
    rw [hj]
  · intro p
    cases p <;> simp [Payload.cerealRegistered, Payload.getNodeType]
  · exact archiveOrder_congr g (roundGraph g fuel r) fuel [] [r] hlook
  · intro nd
    exact ⟨rfl, rfl, roundPayload_commitData nd.payload,
      roundPayload_extraRefs nd.payload⟩
  · intro p hprod htodo
    cases p with
    | product c t d => exact absurd rfl (hprod c t d)
    | todo ds cr du cp dc sp => exact absurd rfl (htodo ds cr du cp dc sp)
    | _ => rfl

/-- C3 amended, witness: on the registered-only graph c3bGraph the
round trip succeeds and its Product comes back with empty title and
description. -/
theorem c3_json_roundtrip_witness :
    jsonRoundTrip c3bGraph 5 "P1" = .ok (some (roundGraph c3bGraph 5 "P1")) ∧
    Graph.getNode (roundGraph c3bGraph 5 "P1") "P1" =
      some { payload := Payload.product {} "" "" } := by
  have h := c3_json_roundtrip c3bGraph 5 "P1"
  refine ⟨h.1 (by decide), ?_⟩
  rw [h.2.2.2.1 "P1" (by decide)]
  rfl

/-- C3 counterexample: a graph whose root is a Todo does not round trip
at all — Todo is never CEREAL_REGISTER_TYPE-registered, so serializing
it throws instead of producing JSON, and in particular no field of a
Todo (dateCompleted included) survives any round trip; and a Product in
a graph that does serialize comes back with empty title and description
(Product::load reads neither), refuting the claim that every
kind-specific scalar field is preserved. -/
theorem c3_counterexample :
    saveGraph c3Graph 5 "T1" =
      .error (.unregisteredPolymorphicType "Todo") ∧
    c3Graph.getNode "T1" =
      some { down := ["P1"],
             payload := Payload.todo "write spec" 10 20 true 5 "" } ∧
    jsonRoundTrip c3bGraph 5 "P1" =
      .ok (some [("P1", { payload := Payload.product {} "" "" })]) ∧
    c3bGraph.getNode "P1" =
      some { payload := Payload.product {} "Widget" "A fine widget" } := by
  refine ⟨rfl, rfl, rfl, rfl⟩

end RequirementsManager
